import Mathlib

/-!
Shallow embedding of the agent-memory engine (TypeScript source) in Lean 4.

Conventions of the embedding:
* SQLite tables are lists of row structures; SQL `SELECT`/`DELETE`/`UPDATE`
  statements become list filters/maps.  `ORDER BY` becomes a stable merge
  sort, `LIMIT`/`OFFSET` become `take`/`drop`.
* JavaScript numbers are modelled as rationals (`ℚ`).  Timestamps (stored as
  ISO-8601 strings in the source and converted with `Date.getTime()`) are
  modelled directly as rational milliseconds since the epoch; the encoding is
  order- and difference-preserving, which is all the code uses.
* External primitives that the engine calls but does not implement —
  `crypto`'s SHA-256, `Math.exp`, `Math.sqrt`, the optional jieba segmenter,
  and SQLite FTS5's MATCH/bm25 ranking — are fields of an `Env` record that
  every function takes explicitly.  Nondeterministic `newId()`/`now()` values
  are passed as explicit arguments.
* Foreign keys are declared `ON DELETE CASCADE` in `SCHEMA_SQL` and
  `openDatabase` sets `PRAGMA foreign_keys = ON`, so deleting a memory row
  cascades to its paths, links, snapshots and embeddings; `deleteMemory`
  models this cascade.  The virtual table `memories_fts` has no foreign key
  and never cascades.
-/

namespace AgentMemory

/-- `type` column of `memories` (memory.ts `MemoryType`). -/
inductive MemoryType where
  | identity
  | emotion
  | knowledge
  | event
deriving DecidableEq, Repr

/-- `relation` column of `links` (link.ts `RelationType`). -/
inductive RelationType where
  | related
  | caused
  | reminds
  | evolved
  | contradicts
deriving DecidableEq, Repr

/-- `action` column of `snapshots` (snapshot.ts `SnapshotAction`). -/
inductive SnapshotAction where
  | create
  | update
  | delete
  | merge
deriving DecidableEq, Repr

/-- A row of the `memories` table (memory.ts `Memory`). -/
structure MemoryRow where
  id : String
  content : String
  type : MemoryType
  priority : Nat
  emotion_val : ℚ
  vitality : ℚ
  stability : ℚ
  access_count : Nat
  last_accessed : Option ℚ
  created_at : ℚ
  updated_at : ℚ
  source : Option String
  agent_id : String
  hash : Option String
deriving DecidableEq, Repr

/-- A row of the `paths` table (path.ts `Path`); the source's `alias`
column is spelled `alias'` because `alias` is a Lean keyword. -/
structure PathRow where
  id : String
  memory_id : String
  agent_id : String
  uri : String
  alias' : Option String
  domain : String
  created_at : ℚ
deriving DecidableEq, Repr

/-- A row of the `links` table (link.ts `Link`). -/
structure LinkRow where
  agent_id : String
  source_id : String
  target_id : String
  relation : RelationType
  weight : ℚ
  created_at : ℚ
deriving DecidableEq, Repr

/-- A row of the `snapshots` table (snapshot.ts `Snapshot`). -/
structure SnapshotRow where
  id : String
  memory_id : String
  content : String
  changed_by : Option String
  action : SnapshotAction
  created_at : ℚ
deriving DecidableEq, Repr

/-- A row of the `embeddings` table (embeddings.ts `StoredEmbedding`);
the packed little-endian Float32 blob is modelled as the exact list of its
components. -/
structure EmbeddingRow where
  agent_id : String
  memory_id : String
  model : String
  dim : Nat
  vector : List ℚ
  created_at : ℚ
  updated_at : ℚ
deriving DecidableEq, Repr

/-- A row of the virtual full-text table `memories_fts`
(`id UNINDEXED, content`). -/
structure FtsRow where
  id : String
  content : String
deriving DecidableEq, Repr

/-- The durable store: one list per table of `SCHEMA_SQL` (db.ts). -/
structure Db where
  memories : List MemoryRow
  paths : List PathRow
  links : List LinkRow
  snapshots : List SnapshotRow
  embeddings : List EmbeddingRow
  fts : List FtsRow
deriving DecidableEq, Repr

/-- External primitives the engine calls but does not implement.

* `sha256hex` — `createHash("sha256").update(·).digest("hex")` (memory.ts).
* `exp` — JavaScript `Math.exp` (decay.ts).
* `sqrt` — JavaScript `Math.sqrt` (hybrid.ts `cosine`).
* `jieba` — the lazily loaded `@node-rs/jieba` handle (tokenizer.ts);
  `none` models the library being unavailable (bigram fallback).
* `ftsMatch` — SQLite FTS5 `MATCH` with its built-in bm25 `rank` over the
  given `memories_fts` contents: the matching row ids paired with their
  (negative) ranks, listed in ascending `rank` order; `none` models the
  query raising a syntax error (caught by the callers). -/
structure Env where
  sha256hex : String → String
  exp : ℚ → ℚ
  sqrt : ℚ → ℚ
  jieba : Option (String → List String)
  ftsMatch : List FtsRow → String → Option (List (String × ℚ))

/-! ## Tokenizer (tokenizer.ts) -/

/-- JavaScript regex class `\w` = `[A-Za-z0-9_]`. -/
def isWordChar (c : Char) : Bool := c.isAlpha || c.isDigit || c = '_'

/-- `[一-鿿]` — CJK Unified Ideographs. -/
def isCJK (c : Char) : Bool := 0x4e00 ≤ c.toNat && c.toNat ≤ 0x9fff

/-- `[぀-ヿ]` — Hiragana and Katakana. -/
def isKana (c : Char) : Bool := 0x3040 ≤ c.toNat && c.toNat ≤ 0x30ff

/-- `[가-힯]` — Hangul syllables. -/
def isHangul (c : Char) : Bool := 0xac00 ≤ c.toNat && c.toNat ≤ 0xd7af

/-- The CJK-ish class `[一-鿿぀-ヿ가-힯]` used
throughout tokenizer.ts. -/
def isCjkLike (c : Char) : Bool := isCJK c || isKana c || isHangul c

/-! ### Character-list string primitives

JavaScript string operations are modelled over the character list of the
string (`String.toList`); for BMP text — all the engine handles — the
JavaScript UTF-16 view and the character view agree. -/

/-- JavaScript `trim()`: strip whitespace from both ends. -/
def strTrim (s : String) : String :=
  String.mk
    (((s.toList.dropWhile Char.isWhitespace).reverse.dropWhile
        Char.isWhitespace).reverse)

/-- JavaScript `slice(0, n)`. -/
def strTake (s : String) (n : Nat) : String :=
  String.mk (s.toList.take n)

/-- Characterwise `replace`-style rewriting. -/
def strMapChars (f : Char → Char) (s : String) : String :=
  String.mk (s.toList.map f)

/-- Split at every character satisfying `p`, keeping empty pieces (the
semantics of `"…".split(/c/)` for a single-character class). -/
def splitOnPred (p : Char → Bool) : List Char → List (List Char)
  | [] => [[]]
  | c :: cs =>
    if p c then [] :: splitOnPred p cs
    else
      match splitOnPred p cs with
      | g :: gs => (c :: g) :: gs
      | [] => [[c]]

/-- String-level split on a character predicate. -/
def strSplitPred (p : Char → Bool) (s : String) : List String :=
  (splitOnPred p s.toList).map String.mk

/-- JavaScript `toUpperCase()` (ASCII range, which is all the callers
test). -/
def strToUpper (s : String) : String :=
  strMapChars Char.toUpper s

/-- tokenizer.ts `STOPWORDS` (common Chinese function words). -/
def STOPWORDS : List String :=
  ["的", "了", "在", "是", "我", "有", "和", "就", "不", "人",
   "都", "一", "个", "上", "也", "到", "他", "没", "这", "要",
   "会", "对", "说", "而", "去", "之", "被", "她", "把", "那"]

/-- `text.replace(/[^\w一-鿿぀-ヿ가-힯\s]/g, " ")`
applied characterwise. -/
def cleanChar (c : Char) : Char :=
  if isWordChar c || isCjkLike c || c.isWhitespace then c else ' '

/-- Maximal runs of CJK-ish characters:
`cleaned.match(/[一-鿿぀-ヿ가-힯]+/g)`. -/
def cjkRuns : List Char → List String
  | [] => []
  | c :: cs =>
    let rest := cjkRuns cs
    if isCjkLike c then
      match cs with
      | c2 :: _ =>
        if isCjkLike c2 then
          match rest with
          | r :: rs => String.mk (c :: r.toList) :: rs
          | [] => [String.mk [c]]
        else String.mk [c] :: rest
      | [] => [String.mk [c]]
    else rest

/-- Consecutive bigrams `chunk[i] + chunk[i + 1]` of a CJK run. -/
def bigrams (cs : List Char) : List String :=
  (cs.zip cs.tail).map fun p => String.mk [p.1, p.2]

/-- tokenizer.ts `tokenize`: Latin/numeric words of length > 1, then CJK
runs segmented by jieba (`cutForSearch`) or the unigram+bigram fallback;
deduplicated keeping first occurrence, stopwords removed, capped at 30. -/
def tokenize (env : Env) (text : String) : List String :=
  let cleaned := strMapChars cleanChar text
  let latinWords :=
    (strSplitPred (fun c => c.isWhitespace)
        (strMapChars (fun c => if isCjkLike c then ' ' else c) cleaned)).filter
      (fun w => w.length > 1)
  let cjkTokens :=
    (cjkRuns cleaned.toList).flatMap fun chunk =>
      match env.jieba with
      | some seg => (seg chunk).filter (fun w => w.length ≥ 1)
      | none => chunk.toList.map (fun ch => String.mk [ch]) ++ bigrams chunk.toList
  (((latinWords ++ cjkTokens).eraseDups).filter
      (fun t => t.length > 0 && !(STOPWORDS.contains t))).take 30

/-- tokenizer.ts `tokenizeForIndex`: the token list joined with single
spaces, fed to the FTS index. -/
def tokenizeForIndex (env : Env) (text : String) : String :=
  String.intercalate " " (tokenize env text)

/-! ## Sorting

SQL `ORDER BY` and JavaScript `Array.prototype.sort` (stable since ES2019)
are modelled by a stable insertion sort: `lt a b` means `a` must come
strictly before `b`; ties keep their original relative order. -/

/-- Insert `a` after every element it does not strictly precede. -/
def insertStable (lt : α → α → Bool) (a : α) : List α → List α
  | [] => [a]
  | b :: bs => if lt a b then a :: b :: bs else b :: insertStable lt a bs

/-- Stable sort: fold the input left to right through `insertStable`. -/
def sortStable (lt : α → α → Bool) (l : List α) : List α :=
  l.foldl (fun acc a => insertStable lt a acc) []

/-! ## Memory CRUD (memory.ts) -/

/-- memory.ts `contentHash`: 16-hex-character prefix of SHA-256 over the
trimmed content (the SHA-256 hex digest itself is `env.sha256hex`). -/
def contentHash (env : Env) (content : String) : String :=
  strTake (env.sha256hex (strTrim content)) 16

/-- memory.ts `TYPE_PRIORITY`: priority defaults based on type. -/
def TYPE_PRIORITY : MemoryType → Nat
  | .identity => 0
  | .emotion => 1
  | .knowledge => 2
  | .event => 3

/-- memory.ts `PRIORITY_STABILITY`: initial Ebbinghaus S parameter based on
priority; `none` models the JavaScript `Infinity` used for P0 (stored as
999999 by `createMemory`). -/
def PRIORITY_STABILITY : Nat → Option ℚ
  | 0 => none
  | 1 => some 365
  | 2 => some 90
  | _ => some 14

/-- memory.ts `CreateMemoryInput`. -/
structure CreateMemoryInput where
  content : String
  type : MemoryType
  priority : Option Nat := none
  emotion_val : Option ℚ := none
  source : Option String := none
  agent_id : Option String := none
deriving DecidableEq, Repr

/-- memory.ts `UpdateMemoryInput`. -/
structure UpdateMemoryInput where
  content : Option String := none
  type : Option MemoryType := none
  priority : Option Nat := none
  emotion_val : Option ℚ := none
  vitality : Option ℚ := none
  stability : Option ℚ := none
  source : Option (Option String) := none
deriving DecidableEq, Repr

/-- memory.ts `getMemory`: `SELECT * FROM memories WHERE id = ?`. -/
def getMemory (db : Db) (id : String) : Option MemoryRow :=
  db.memories.find? (fun m => m.id == id)

/-- SQL `UPDATE memories SET … WHERE id = ?`: apply `f` to every row whose
`id` equals `i`. -/
def updateWhereId (l : List MemoryRow) (i : String) (f : MemoryRow → MemoryRow) :
    List MemoryRow :=
  l.map (fun m => if m.id == i then f m else m)

/-- memory.ts `createMemory`.  `freshId` models `newId()` and `ts` models
`now()`.  Returns `none` (and leaves the store untouched) when a memory
with the same `(hash, agent_id)` already exists; otherwise inserts the row
and its tokenized full-text mirror. -/
def createMemory (env : Env) (freshId : String) (ts : ℚ) (db : Db)
    (input : CreateMemoryInput) : Option MemoryRow × Db :=
  let hash := contentHash env input.content
  let agentId := input.agent_id.getD "default"
  let priority := input.priority.getD (TYPE_PRIORITY input.type)
  let stability := PRIORITY_STABILITY priority
  match db.memories.find? (fun m => m.hash == some hash && m.agent_id == agentId) with
  | some _ => (none, db)
  | none =>
    let row : MemoryRow :=
      { id := freshId
        content := input.content
        type := input.type
        priority := priority
        emotion_val := input.emotion_val.getD 0
        vitality := 1
        stability := stability.getD 999999
        access_count := 0
        last_accessed := none
        created_at := ts
        updated_at := ts
        source := input.source
        agent_id := agentId
        hash := some hash }
    let ftsRow : FtsRow := { id := freshId, content := tokenizeForIndex env input.content }
    (some row,
      { db with memories := db.memories ++ [row], fts := db.fts ++ [ftsRow] })

/-- memory.ts `updateMemory`: collect SET clauses for the supplied fields
(content updates also refresh `hash`), always rewrite `updated_at`, and
resynchronize the full-text row when content changed. -/
def updateMemory (env : Env) (ts : ℚ) (db : Db) (id : String)
    (input : UpdateMemoryInput) : Option MemoryRow × Db :=
  match getMemory db id with
  | none => (none, db)
  | some existing =>
    let updated : MemoryRow :=
      { existing with
        content := input.content.getD existing.content
        hash := match input.content with
          | some c => some (contentHash env c)
          | none => existing.hash
        type := input.type.getD existing.type
        priority := input.priority.getD existing.priority
        emotion_val := input.emotion_val.getD existing.emotion_val
        vitality := input.vitality.getD existing.vitality
        stability := input.stability.getD existing.stability
        source := input.source.getD existing.source
        updated_at := ts }
    let db1 := { db with
      memories := updateWhereId db.memories id (fun _ => updated) }
    let db2 := match input.content with
      | some c =>
        { db1 with fts := (db1.fts.filter (fun f => !(f.id == id))) ++
            [{ id := id, content := tokenizeForIndex env c }] }
      | none => db1
    (getMemory db2 id, db2)

/-- The referential-integrity cascades of `SCHEMA_SQL` (db.ts): when memory
rows with the given ids are deleted, every path, link, snapshot and
embedding row referencing one of them is deleted too (`ON DELETE CASCADE`,
with `PRAGMA foreign_keys = ON` set by `openDatabase`).  The virtual
`memories_fts` table has no foreign key and is not touched.  Rows
referencing ids that were never present as memory rows (legacy orphans) are
unaffected, exactly as in SQLite. -/
def cascadeDeleteMemoryRefs (db : Db) (deletedIds : List String) : Db :=
  { db with
    paths := db.paths.filter (fun p => !(deletedIds.contains p.memory_id))
    links := db.links.filter (fun l =>
      !(deletedIds.contains l.source_id) && !(deletedIds.contains l.target_id))
    snapshots := db.snapshots.filter (fun s => !(deletedIds.contains s.memory_id))
    embeddings := db.embeddings.filter (fun e => !(deletedIds.contains e.memory_id)) }

/-- memory.ts `deleteMemory`: delete the full-text row, then the memory row
(the engine cascades its paths, links, snapshots and embeddings). -/
def deleteMemory (db : Db) (id : String) : Bool × Db :=
  let db1 := { db with fts := db.fts.filter (fun f => !(f.id == id)) }
  let removedIds := (db1.memories.filter (fun m => m.id == id)).map (fun m => m.id)
  let remaining := db1.memories.filter (fun m => !(m.id == id))
  let changed := remaining.length < db1.memories.length
  (changed, cascadeDeleteMemoryRefs { db1 with memories := remaining } removedIds)

/-- `ORDER BY priority ASC, updated_at DESC` as a strict precedence test. -/
def listMemoriesLt (a b : MemoryRow) : Bool :=
  a.priority < b.priority || (a.priority == b.priority && a.updated_at > b.updated_at)

/-- path.ts `getPathByUri`:
`SELECT * FROM paths WHERE agent_id = ? AND uri = ?` — note the
`agent_id = "default"` default parameter. -/
def getPathByUri (db : Db) (uri : String) (agent_id : String := "default") :
    Option PathRow :=
  db.paths.find? (fun p => p.agent_id == agent_id && p.uri == uri)

/-! ## Snapshots (snapshot.ts) -/

/-- snapshot.ts `createSnapshot`: copy the memory's current content into a
new snapshot row.  `none` models the `Memory not found` exception. -/
def createSnapshot (freshId : String) (ts : ℚ) (db : Db) (memoryId : String)
    (action : SnapshotAction) (changedBy : Option String) :
    Option (SnapshotRow × Db) :=
  match getMemory db memoryId with
  | none => none
  | some memory =>
    let row : SnapshotRow :=
      { id := freshId, memory_id := memoryId, content := memory.content
        changed_by := changedBy, action := action, created_at := ts }
    some (row, { db with snapshots := db.snapshots ++ [row] })

/-- snapshot.ts `getSnapshot`: `SELECT * FROM snapshots WHERE id = ?`. -/
def getSnapshot (db : Db) (id : String) : Option SnapshotRow :=
  db.snapshots.find? (fun s => s.id == id)

/-- snapshot.ts `getSnapshots`:
`SELECT * FROM snapshots WHERE memory_id = ? ORDER BY created_at DESC`. -/
def getSnapshots (db : Db) (memoryId : String) : List SnapshotRow :=
  sortStable (fun a b => a.created_at > b.created_at)
    (db.snapshots.filter (fun s => s.memory_id == memoryId))

/-- snapshot.ts `rollback`: snapshot the current state (`action = update`,
`changed_by = "rollback"`), then restore the snapshot's content with a raw
`UPDATE memories SET content = ?, updated_at = ?` (note: no `hash` column in
the SET list) and resynchronize the full-text row.  Returns `some false`
when the snapshot id is unknown and `none` when `createSnapshot` throws. -/
def rollback (env : Env) (freshId : String) (ts : ℚ) (db : Db) (snapshotId : String) :
    Option (Bool × Db) :=
  match getSnapshot db snapshotId with
  | none => some (false, db)
  | some snapshot =>
    match createSnapshot freshId ts db snapshot.memory_id .update (some "rollback") with
    | none => none
    | some (_, db1) =>
      let restored := updateWhereId db1.memories snapshot.memory_id (fun m =>
        { m with content := snapshot.content, updated_at := ts })
      let db2 : Db := { db1 with memories := restored }
      let db3 : Db := { db2 with fts :=
        (db2.fts.filter (fun f => !(f.id == snapshot.memory_id))) ++
          [{ id := snapshot.memory_id,
             content := tokenizeForIndex env snapshot.content }] }
      some (true, db3)

/-! ## Write Guard (guard.ts) -/

/-- guard.ts `GuardAction`. -/
inductive GuardAction where
  | add
  | update
  | skip
  | merge
deriving DecidableEq, Repr

/-- guard.ts `GuardResult`. -/
structure GuardResult where
  action : GuardAction
  reason : String
  existingId : Option String := none
  mergedContent : Option String := none
deriving DecidableEq, Repr

/-- guard.ts input type `CreateMemoryInput & { uri?: string }`. -/
structure GuardInput extends CreateMemoryInput where
  uri : Option String := none
deriving DecidableEq, Repr

/-- guard.ts `GateResult`. -/
structure GateResult where
  pass : Bool
  specificity : ℚ
  novelty : ℚ
  relevance : ℚ
  coherence : ℚ
  failedCriteria : List String
deriving DecidableEq, Repr

/-- The unanchored regex `/\w+:\/\//` of the relevance criterion: somewhere
a word character is immediately followed by `://`. -/
def hasUriLike : List Char → Bool
  | [] => false
  | c :: rest => (isWordChar c && "://".toList.isPrefixOf rest) || hasUriLike rest

/-- JavaScript `.` (as in `/(.)\1{9,}/`) matches anything except a line
terminator. -/
def isLineTerminator (c : Char) : Bool :=
  c = '\n' || c = '\r' || c.toNat = 0x2028 || c.toNat = 0x2029

/-- Continue scanning for a run of ≥ 10 equal (non-line-terminator)
characters, given the previous character and the current run length. -/
def hasCharRun : List Char → Char → Nat → Bool
  | [], _, run => run ≥ 10
  | c :: cs, prev, run =>
    if run ≥ 10 then true
    else if c = prev && !isLineTerminator c then hasCharRun cs prev (run + 1)
    else hasCharRun cs c (if isLineTerminator c then 0 else 1)

/-- guard.ts regex `/(.)\1{9,}/`: some character repeated 10+ times in a
row. -/
def excessiveRepetitionCheck (s : String) : Bool :=
  match s.toList with
  | [] => false
  | c :: cs => hasCharRun cs c (if isLineTerminator c then 0 else 1)

/-- The punctuation class `[\s，。！？,.!?；;：:]` of the coherence
criterion. -/
def coherencePunct : List Char :=
  ['，', '。', '！', '？', ',', '.', '!', '?', '；', ';', '：', ':']

/-- guard.ts `fourCriterionGate`: Specificity, Novelty, Relevance and
Coherence over the trimmed content; all four must pass. -/
def fourCriterionGate (env : Env) (input : GuardInput) : GateResult :=
  let content := strTrim input.content
  let cs := content.toList
  let priority := input.priority.getD (TYPE_PRIORITY input.type)
  let minLength : Nat := if priority ≤ 1 then 4 else 8
  let specificity : ℚ :=
    if content.length ≥ minLength then min 1 ((content.length : ℚ) / 50) else 0
  let failed1 : List String :=
    if specificity = 0 then
      ["specificity (too short: " ++ toString content.length ++ " < " ++
        toString minLength ++ " chars)"]
    else []
  let tokens := tokenize env content
  let novelty : ℚ := if tokens.length ≥ 1 then min 1 ((tokens.length : ℚ) / 5) else 0
  let failed2 : List String :=
    if novelty = 0 then ["novelty (no meaningful tokens after filtering)"] else []
  let hasCJK := cs.any isCJK
  let hasCapitalized := (cs.zip cs.tail).any (fun p => p.1.isUpper && p.2.isLower)
  let hasNumbers := cs.any Char.isDigit
  let hasURI := hasUriLike cs
  let hasEntityMarkers := cs.any (fun c => c = '@' || c = '#')
  let hasMeaningfulLength := content.length ≥ 15
  let topicSignals :=
    ([hasCJK, hasCapitalized, hasNumbers, hasURI, hasEntityMarkers,
      hasMeaningfulLength].filter id).length
  let relevance : ℚ := if topicSignals ≥ 1 then min 1 ((topicSignals : ℚ) / 3) else 0
  let failed3 : List String :=
    if relevance = 0 then ["relevance (no identifiable topics/entities)"] else []
  let allCaps := content == strToUpper content && content.length > 20 &&
    cs.all (fun c => c.isUpper || c.isWhitespace) && !(cs.isEmpty)
  let hasWhitespaceOrPunctuation :=
    cs.any (fun c => c.isWhitespace || coherencePunct.contains c) || content.length < 30
  let excessiveRepetition := excessiveRepetitionCheck content
  let coherence : ℚ := max 0
    ((1 : ℚ) - (if allCaps then 1/2 else 0) -
      (if !hasWhitespaceOrPunctuation then 3/10 else 0) -
      (if excessiveRepetition then 1/2 else 0))
  let failed4 : List String :=
    if coherence < 3/10 then ["coherence (garbled or malformed content)"] else []
  let failed := failed1 ++ failed2 ++ failed3 ++ failed4
  { pass := failed.isEmpty
    specificity := specificity, novelty := novelty
    relevance := relevance, coherence := coherence
    failedCriteria := failed }

/-- Stages 3 and 4 of guard.ts `guard`: BM25 similarity with the dynamic
threshold `tokenCount × 1.5` (merge on same type), then the four-criterion
gate, else `add`.  (The `score=…, threshold=…` numerals interpolated into
the merge reason are elided from the reason string.) -/
def guardSimilarityAndGate (env : Env) (db : Db) (input : GuardInput)
    (agentId : String) : GuardResult :=
  let gate : GuardResult :=
    let gateResult := fourCriterionGate env input
    if !gateResult.pass then
      { action := .skip
        reason := "Gate rejected: " ++ String.intercalate ", " gateResult.failedCriteria }
    else { action := .add, reason := "Passed all guard checks" }
  let ftsTokens := tokenize env (strTake input.content 200)
  if ftsTokens.isEmpty then gate
  else
    let ftsQuery :=
      String.intercalate " OR " ((ftsTokens.take 8).map (fun w => "\"" ++ w ++ "\""))
    match env.ftsMatch db.fts ftsQuery with
    | none => gate
    | some matched =>
      let similar := (matched.filterMap (fun p =>
        match db.memories.find? (fun m => m.id == p.1) with
        | some m => if m.agent_id == agentId then some (m, p.2) else none
        | none => none)).take 3
      match similar with
      | [] => gate
      | (existing, rank) :: _ =>
        let topRank := |rank|
        let dynamicThreshold := (ftsTokens.length : ℚ) * (3/2)
        if topRank > dynamicThreshold then
          if existing.type == input.type then
            { action := .merge
              reason := "Similar content found, merging"
              existingId := some existing.id
              mergedContent := some (existing.content ++ "\n\n[Updated] " ++ input.content) }
          else gate
        else gate

/-- guard.ts `guard`: (1) hash dedup, (2) URI conflict — note that
`getPathByUri(db, input.uri)` is called without an agent id, so the lookup
uses the `"default"` tenant — then (3) similarity and (4) the gate.
Performs no mutation. -/
def guard (env : Env) (db : Db) (input : GuardInput) : GuardResult :=
  let hash := contentHash env input.content
  let agentId := input.agent_id.getD "default"
  match db.memories.find? (fun m => m.hash == some hash && m.agent_id == agentId) with
  | some exactMatch =>
    { action := .skip, reason := "Exact duplicate (hash match)"
      existingId := some exactMatch.id }
  | none =>
    let uriHit : Option (String × PathRow) :=
      match input.uri with
      | some uri => if uri == "" then none else (getPathByUri db uri).map (fun p => (uri, p))
      | none => none
    match uriHit with
    | some (uri, existingPath) =>
      { action := .update
        reason := "URI " ++ uri ++ " already exists, updating"
        existingId := some existingPath.memory_id }
    | none => guardSimilarityAndGate env db input agentId

/-! ## Decay (decay.ts) -/

/-- decay.ts `MIN_VITALITY` with the `?? 0.0` fallback for priorities
outside the map. -/
def MIN_VITALITY : Nat → ℚ
  | 0 => 1
  | 1 => 3/10
  | 2 => 1/10
  | 3 => 0
  | _ => 0

/-- decay.ts `calculateVitality`: P0 never decays; otherwise
`max(priority floor, exp(-t / max(0.01, stability)))`.  `env.exp` is
`Math.exp`. -/
def calculateVitality (env : Env) (stability : ℚ) (daysSinceLastAccess : ℚ)
    (priority : Nat) : ℚ :=
  if priority = 0 then 1
  else
    let S := max (1/100) stability
    let retention := env.exp (-daysSinceLastAccess / S)
    max (MIN_VITALITY priority) retention

/-- decay.ts `runDecay` report. -/
structure DecayReport where
  updated : Nat
  decayed : Nat
  belowThreshold : Nat
deriving DecidableEq, Repr

/-- `last_accessed ?? created_at` — the decay reference time. -/
def decayReference (m : MemoryRow) : ℚ :=
  m.last_accessed.getD m.created_at

/-- One iteration of the `runDecay` loop over the initially selected rows:
recompute vitality from the Ebbinghaus curve and update the row (vitality
and `updated_at` only) when it moved by more than 0.001. -/
def runDecayStep (env : Env) (currentTime : ℚ) (acc : DecayReport × Db)
    (mem : MemoryRow) : DecayReport × Db :=
  let (rep, d) := acc
  let daysSince := (currentTime - decayReference mem) / 86400000
  let newVitality := calculateVitality env mem.stability daysSince mem.priority
  if |newVitality - mem.vitality| > 1/1000 then
    ({ updated := rep.updated + 1
       decayed := rep.decayed + (if newVitality < mem.vitality then 1 else 0)
       belowThreshold := rep.belowThreshold + (if newVitality < 1/20 then 1 else 0) },
     { d with memories := updateWhereId d.memories mem.id (fun m =>
        { m with vitality := newVitality, updated_at := currentTime }) })
  else (rep, d)

/-- decay.ts `runDecay`: select all memories with `priority > 0` (with
their current `stability`, reference times and `vitality`), then run the
update loop; `currentTime` models `now()`. -/
def runDecay (env : Env) (currentTime : ℚ) (db : Db) : DecayReport × Db :=
  let memories := db.memories.filter (fun m => m.priority > 0)
  memories.foldl (runDecayStep env currentTime)
    ({ updated := 0, decayed := 0, belowThreshold := 0 }, db)

/-- decay.ts `getDecayedMemories`:
`SELECT … WHERE vitality < ? AND priority >= 3 ORDER BY vitality ASC`
(the source projects four columns; the embedding returns the full rows,
of which the callers use only `id`). -/
def getDecayedMemories (db : Db) (threshold : ℚ := 1/20) : List MemoryRow :=
  sortStable (fun a b => a.vitality < b.vitality)
    (db.memories.filter (fun m => m.vitality < threshold && m.priority ≥ 3))

/-! ## Tidy (tidy.ts) -/

/-- tidy.ts `TidyResult`. -/
structure TidyResult where
  archived : Nat
  orphansCleaned : Nat
  snapshotsPruned : Nat
deriving DecidableEq, Repr

/-- The body of the tidy archival loop for one decayed candidate: record a
`"delete"` snapshot (`try`/`catch` — a failure is swallowed), then delete
the memory (cascading its paths, links, snapshots and embeddings). -/
def archiveStep (freshId : String) (ts : ℚ) (db : Db) (memId : String) : Db :=
  let db1 := match createSnapshot freshId ts db memId .delete (some "tidy") with
    | some (_, d) => d
    | none => db
  (deleteMemory db1 memId).2

/-- The snapshot-pruning loop body of tidy.ts `runTidy`: for one memory id,
keep only the `maxSnapshots` most recent snapshots (`created_at DESC`). -/
def pruneStep (maxSnapshots : Nat) (acc : Nat × Db) (mid : String) : Nat × Db :=
  let (n, d) := acc
  let keepIds := ((sortStable (fun a b => a.created_at > b.created_at)
      (d.snapshots.filter (fun s => s.memory_id == mid))).take maxSnapshots).map
      (fun s => s.id)
  let kept := d.snapshots.filter (fun s => !(s.memory_id == mid) || keepIds.contains s.id)
  (n + (d.snapshots.length - kept.length), { d with snapshots := kept })

/-- tidy.ts `runTidy`: (1) archive decayed candidates
(`vitality < threshold` and `priority ≥ 3`) with a best-effort `"delete"`
snapshot before each deletion, (2) delete orphan paths, (3) prune snapshots
per memory to the most recent `maxSnapshotsPerMemory`.  `freshIds` models
the `newId()` values consumed by the snapshot inserts. -/
def runTidy (freshIds : Nat → String) (ts : ℚ) (db : Db)
    (vitalityThreshold : ℚ := 1/20) (maxSnapshotsPerMemory : Nat := 10) :
    TidyResult × Db :=
  let decayed := getDecayedMemories db vitalityThreshold
  let db1 := (decayed.foldl
    (fun (acc : Nat × Db) mem => (acc.1 + 1, archiveStep (freshIds acc.1) ts acc.2 mem.id))
    (0, db)).2
  let archived := decayed.length
  let ids := db1.memories.map (fun m => m.id)
  let keptPaths := db1.paths.filter (fun p => ids.contains p.memory_id)
  let orphansCleaned := db1.paths.length - keptPaths.length
  let db2 : Db := { db1 with paths := keptPaths }
  let memoriesWithSnapshots := ((db2.snapshots.map (fun s => s.memory_id)).eraseDups).filter
    (fun mid => (db2.snapshots.filter (fun s => s.memory_id == mid)).length >
      maxSnapshotsPerMemory)
  let (snapshotsPruned, db3) := memoriesWithSnapshots.foldl
    (pruneStep maxSnapshotsPerMemory) (0, db2)
  ({ archived := archived, orphansCleaned := orphansCleaned
     snapshotsPruned := snapshotsPruned }, db3)

/-! ## Govern (govern.ts) -/

/-- govern.ts `GovernResult`. -/
structure GovernResult where
  orphanPaths : Nat
  orphanLinks : Nat
  emptyMemories : Nat
deriving DecidableEq, Repr

/-- govern.ts `runGovern`: delete orphan paths, delete orphan links, delete
empty-content memories (whose deletion cascades to their paths, links,
snapshots and embeddings), each agent-scoped when an `agent_id` option is
given. -/
def runGovern (db : Db) (agentId : Option String := none) : GovernResult × Db :=
  match agentId with
  | some a =>
    let aIds := (db.memories.filter (fun m => m.agent_id == a)).map (fun m => m.id)
    let keptPaths := db.paths.filter
      (fun p => !(p.agent_id == a) || aIds.contains p.memory_id)
    let orphanPaths := db.paths.length - keptPaths.length
    let db1 : Db := { db with paths := keptPaths }
    let keptLinks := db1.links.filter
      (fun l => !(l.agent_id == a) ||
        (aIds.contains l.source_id && aIds.contains l.target_id))
    let orphanLinks := db1.links.length - keptLinks.length
    let db2 : Db := { db1 with links := keptLinks }
    let deletedIds := ((db2.memories.filter
      (fun m => m.agent_id == a && strTrim m.content == "")).map (fun m => m.id))
    let remaining := db2.memories.filter
      (fun m => !(m.agent_id == a && strTrim m.content == ""))
    let db3 := cascadeDeleteMemoryRefs { db2 with memories := remaining } deletedIds
    ({ orphanPaths := orphanPaths, orphanLinks := orphanLinks
       emptyMemories := deletedIds.length }, db3)
  | none =>
    let ids := db.memories.map (fun m => m.id)
    let keptPaths := db.paths.filter (fun p => ids.contains p.memory_id)
    let orphanPaths := db.paths.length - keptPaths.length
    let db1 : Db := { db with paths := keptPaths }
    let keptLinks := db1.links.filter
      (fun l => ids.contains l.source_id && ids.contains l.target_id)
    let orphanLinks := db1.links.length - keptLinks.length
    let db2 : Db := { db1 with links := keptLinks }
    let deletedIds := ((db2.memories.filter (fun m => strTrim m.content == "")).map
      (fun m => m.id))
    let remaining := db2.memories.filter (fun m => !(strTrim m.content == ""))
    let db3 := cascadeDeleteMemoryRefs { db2 with memories := remaining } deletedIds
    ({ orphanPaths := orphanPaths, orphanLinks := orphanLinks
       emptyMemories := deletedIds.length }, db3)

/-! ## Boot (boot.ts) -/

/-- embeddings.ts `listEmbeddings`:
`SELECT memory_id, vector FROM embeddings WHERE agent_id = ? AND model = ?`
(the Float32 blob round-trips exactly in this model). -/
def listEmbeddings (db : Db) (agent_id : String) (model : String) :
    List (String × List ℚ) :=
  (db.embeddings.filter (fun e => e.agent_id == agent_id && e.model == model)).map
    (fun e => (e.memory_id, e.vector))

/-! ## Embedding providers (providers.ts) -/

/-- providers.ts `EmbeddingProvider`; the network `embed`/`embedQuery`
calls are modelled as pure vector-valued functions and the interface field
`instructionPrefix` is spelled `instruction` here.  `embedQuery` is an
optional method. -/
structure EmbeddingProvider where
  id : String
  model : String
  dimension : Option Nat := none
  instruction : Option String := none
  embed : String → List ℚ
  embedQuery : Option (String → List ℚ) := none

/-- providers.ts `QWEN_DEFAULT_INSTRUCTION`. -/
def QWEN_DEFAULT_INSTRUCTION : String :=
  "Given a query, retrieve the most semantically relevant document"

/-- Case-insensitive ASCII lowering (JavaScript `toLowerCase()` restricted
to ASCII, which is all the callers feed it). -/
def strToLower (s : String) : String :=
  strMapChars (fun c => c.toLower) s

/-- List-level substring containment. -/
def listContainsSub [BEq α] (needle : List α) : List α → Bool
  | [] => needle.isEmpty
  | a :: t => needle.isPrefixOf (a :: t) || listContainsSub needle t

/-- `String.includes` of JavaScript. -/
def strIncludes (hay needle : String) : Bool :=
  listContainsSub needle.toList hay.toList

/-- providers.ts `getDefaultInstruction`: Qwen models default to the Qwen
instruction, Gemini and everything else to `null`. -/
def getDefaultInstruction (model : String) : Option String :=
  let m := strToLower model
  if strIncludes m "qwen" then some QWEN_DEFAULT_INSTRUCTION
  else if strIncludes m "gemini" then none
  else none

/-- providers.ts `buildQueryInput`: wrap the query as
`Instruct: {prefix}\nQuery: {query}` when an instruction prefix is set
(JavaScript falsiness: an empty prefix also leaves the query bare). -/
def buildQueryInput (query : String) (instruction : Option String) : String :=
  match instruction with
  | none => query
  | some p => if p == "" then query else "Instruct: " ++ p ++ "\nQuery: " ++ query

/-- The provider object returned by providers.ts `createOpenAIProvider` /
`createDashScopeProvider`, abstracted over the HTTP embedding request:
`embed` sends the text unmodified, `embedQuery` sends
`buildQueryInput(query, instructionPrefix)`. -/
def createProviderCore (pid : String) (model : String)
    (instruction : Option String) (requestEmbedding : String → List ℚ) :
    EmbeddingProvider :=
  { id := pid
    model := model
    instruction := instruction
    embed := requestEmbedding
    embedQuery := some (fun q => requestEmbedding (buildQueryInput q instruction)) }

/-! ## BM25 search (bm25.ts) -/

/-- bm25.ts `SearchResult`. -/
structure SearchResult where
  memory : MemoryRow
  score : ℚ
  matchReason : String
deriving DecidableEq, Repr

/-- bm25.ts `buildFtsQuery`: strip everything outside
`[\w一-鿿぀-ヿ\s]` (no Hangul here, unlike the
tokenizer), keep words of length > 1, cap at 10, join `"w"`s with ` OR `. -/
def buildFtsQuery (text : String) : Option String :=
  let words := ((strSplitPred (fun c => c.isWhitespace)
      (strMapChars (fun c =>
        if isWordChar c || isCJK c || isKana c || c.isWhitespace then c else ' ')
        text)).filter (fun w => w.length > 1)).take 10
  if words.isEmpty then none
  else some (String.intercalate " OR " (words.map (fun w => "\"" ++ w ++ "\"")))

/-- SQLite `LIKE` is case-insensitive for ASCII. -/
def likeContains (hay needle : String) : Bool :=
  strIncludes (strToLower hay) (strToLower needle)

/-- bm25.ts `searchSimple` — the `LIKE %query%` fallback ordered by
`priority ASC, updated_at DESC` with synthetic scores `1/(i+1)`. -/
def searchSimple (db : Db) (query : String) (agentId : String)
    (minVitality : ℚ) (limit : Nat) : List SearchResult :=
  let rows := (sortStable listMemoriesLt (db.memories.filter
    (fun m => m.agent_id == agentId && m.vitality ≥ minVitality &&
      likeContains m.content query))).take limit
  rows.enum.map (fun p =>
    { memory := p.2, score := 1 / ((p.1 : ℚ) + 1), matchReason := "like" })

/-- Options of bm25.ts `searchBM25`. -/
structure SearchBM25Opts where
  agent_id : Option String := none
  limit : Option Nat := none
  min_vitality : Option ℚ := none

/-- bm25.ts `searchBM25`: run the OR-query against the full-text index
joined to memories (agent- and vitality-filtered, ordered by rank, capped),
with scores `|rank|`; a `MATCH` error falls back to `searchSimple`. -/
def searchBM25 (env : Env) (db : Db) (query : String)
    (opts : SearchBM25Opts := {}) : List SearchResult :=
  let limit := opts.limit.getD 20
  let agentId := opts.agent_id.getD "default"
  let minVitality := opts.min_vitality.getD 0
  match buildFtsQuery query with
  | none => []
  | some ftsQuery =>
    match env.ftsMatch db.fts ftsQuery with
    | some matched =>
      let rows := ((matched.filterMap (fun p =>
        match db.memories.find? (fun m => m.id == p.1) with
        | some m =>
          if m.agent_id == agentId && m.vitality ≥ minVitality then some (m, p.2)
          else none
        | none => none)).take limit)
      rows.map (fun r => { memory := r.1, score := |r.2|, matchReason := "bm25" })
    | none => searchSimple db query agentId minVitality limit

/-! ## Hybrid search (hybrid.ts) -/

/-- hybrid.ts `HybridSearchOptions`. -/
structure HybridSearchOptions where
  agent_id : Option String := none
  limit : Option Nat := none
  bm25CandidateMultiplier : Option Nat := none
  semanticCandidates : Option Nat := none
  rrfK : Option ℚ := none
  embeddingProvider : Option EmbeddingProvider := none
  embeddingModel : Option String := none

/-- hybrid.ts `cosine` over the common prefix of the two vectors, 0 when
either norm is 0; `env.sqrt` is `Math.sqrt`. -/
def cosine (env : Env) (a b : List ℚ) : ℚ :=
  let n := min a.length b.length
  let pairs := (a.take n).zip (b.take n)
  let dot := (pairs.map (fun p => p.1 * p.2)).sum
  let na := ((a.take n).map (fun x => x * x)).sum
  let nb := ((b.take n).map (fun y => y * y)).sum
  if na = 0 || nb = 0 then 0 else dot / (env.sqrt na * env.sqrt nb)

/-- hybrid.ts `rrfScore`. -/
def rrfScore (rank : ℚ) (k : ℚ) : ℚ := 1 / (k + rank)

/-- One insertion into the RRF accumulator map (a JavaScript `Map`, i.e.
an insertion-ordered association list): add the contribution and record the
contributing list's name. -/
def fuseInsert (out : List (String × ℚ × List String)) (mid : String)
    (add : ℚ) (lname : String) : List (String × ℚ × List String) :=
  if out.any (fun e => e.1 == mid) then
    out.map (fun e =>
      if e.1 == mid then
        (e.1, e.2.1 + add,
          if e.2.2.contains lname then e.2.2 else e.2.2 ++ [lname])
      else e)
  else out ++ [(mid, add, [lname])]

/-- hybrid.ts `fuseRrf`: reciprocal-rank fusion over named ranked lists of
`(id, score)` items with 1-based ranks. -/
def fuseRrf (lists : List (String × List (String × ℚ))) (k : ℚ) :
    List (String × ℚ × List String) :=
  lists.foldl (fun out l =>
    l.2.enum.foldl (fun out' p =>
      fuseInsert out' p.2.1 (rrfScore ((p.1 : ℚ) + 1) k) l.1) out) []

/-- hybrid.ts `fetchMemories`:
`SELECT * FROM memories WHERE id IN (…) [AND agent_id = ?]`. -/
def fetchMemories (db : Db) (ids : List String) (agentId : Option String) :
    List MemoryRow :=
  if ids.isEmpty then []
  else db.memories.filter (fun m => ids.contains m.id &&
    (match agentId with | some a => m.agent_id == a | none => true))

/-- hybrid.ts `searchHybrid`: BM25 with `limit × multiplier` candidates;
if a provider and model are configured, embed the query **via
`provider.embed(query)`** (the raw query text — `embedQuery` is never
called), brute-force cosine against the stored embeddings, RRF-fuse the two
lists, hydrate, sort by fused score and truncate. -/
def searchHybrid (env : Env) (db : Db) (query : String)
    (opts : HybridSearchOptions := {}) : List SearchResult :=
  let agentId := opts.agent_id.getD "default"
  let limit := opts.limit.getD 10
  let bm25Mult := opts.bm25CandidateMultiplier.getD 3
  let semanticCandidates := opts.semanticCandidates.getD 50
  let rrfK := opts.rrfK.getD 60
  let bm25 := searchBM25 env db query
    { agent_id := some agentId, limit := some (limit * bm25Mult) }
  let provider := opts.embeddingProvider
  let model : Option String := match opts.embeddingModel with
    | some m => some m
    | none => provider.map (fun p => p.model)
  match provider, model with
  | some p, some m =>
    if m == "" then bm25.take limit
    else
      let qVec := p.embed query
      let embeddings := listEmbeddings db agentId m
      let scored : List (String × ℚ) :=
        embeddings.map (fun e => (e.1, cosine env qVec e.2))
      let semanticTop := (sortStable (fun a b => a.2 > b.2) scored).take
        semanticCandidates
      let fused := fuseRrf
        [("bm25", bm25.map (fun r => (r.memory.id, r.score))),
         ("semantic", semanticTop)] rrfK
      let ids := fused.map (fun e => e.1)
      let memories := fetchMemories db ids (some agentId)
      let out : List SearchResult := fused.filterMap (fun e =>
        (memories.find? (fun mm => mm.id == e.1)).map (fun mem =>
          { memory := mem, score := e.2.1
            matchReason := String.intercalate "+"
              (sortStable (fun a b => decide (a < b)) e.2.2) }))
      (sortStable (fun a b => a.score > b.score) out).take limit
  | _, _ => bm25.take limit

/-! ## Concrete states used by counterexamples and witnesses -/

/-- A concrete environment for closed evaluations: the SHA-256 hex digest
is modelled by an (injective-on-the-inputs-used) identity, `Math.exp` by a
constant 1/2, `Math.sqrt` by the identity (exact on 0 and 1, the only norms
that occur), jieba unavailable, and FTS5 matching nothing. -/
def envA : Env :=
  { sha256hex := fun s => s
    exp := fun _ => 1/2
    sqrt := fun q => q
    jieba := none
    ftsMatch := fun _ _ => some [] }

/-- Memory-row builder with schema-like defaults, for concrete states. -/
def mkMem (id content : String) (ty : MemoryType) (priority : Nat)
    (agent : String) (hash : Option String := none) (vitality : ℚ := 1)
    (stability : ℚ := 14) (access_count : Nat := 0)
    (last_accessed : Option ℚ := none) (created_at : ℚ := 0)
    (updated_at : ℚ := 0) : MemoryRow :=
  { id := id, content := content, type := ty, priority := priority
    emotion_val := 0, vitality := vitality, stability := stability
    access_count := access_count, last_accessed := last_accessed
    created_at := created_at, updated_at := updated_at, source := none
    agent_id := agent, hash := hash }

/-- State for C1: the URI `core://x` is pathed in tenant `"default"` only;
tenant `"a"` has no memories and no paths. -/
def dbC1 : Db :=
  { memories := [mkMem "m-def" "existing" .identity 0 "default" (some "existing")]
    paths := [{ id := "p1", memory_id := "m-def", agent_id := "default"
                uri := "core://x", alias' := none, domain := "core", created_at := 0 }]
    links := []
    snapshots := []
    embeddings := []
    fts := [{ id := "m-def", content := "existing" }] }

/-- Input for C1: tenant `"a"` supplies the URI `core://x`; its content
hash matches nothing in tenant `"a"`. -/
def inputC1 : GuardInput :=
  { content := "tenant a content", type := .event, agent_id := some "a"
    uri := some "core://x" }

/-- The embedding request used for C2: texts containing `高兴` — and the
Instruct-wrapped query `Instruct: test\nQuery: 开心` — map to the concept
vector `[1,0,0]`; everything else (including the bare query `开心`) maps to
`[0,1,0]`. -/
def reqC2 (t : String) : List ℚ :=
  if strIncludes t "高兴" || t == "Instruct: test\nQuery: 开心" then [1, 0, 0]
  else [0, 1, 0]

/-- A provider with `instructionPrefix = "test"` built exactly as
providers.ts builds its providers. -/
def providerC2 : EmbeddingProvider :=
  createProviderCore "mock" "mock-1" (some "test") reqC2

/-- State for C2: `m1` (我今天很高兴) carries the concept vector,
`m2` (天气一般般) the other one. -/
def dbC2 : Db :=
  { memories :=
      [mkMem "m1" "我今天很高兴" .emotion 1 "default" (some "h1")
        , mkMem "m2" "天气一般般" .event 3 "default" (some "h2")]
    paths := []
    links := []
    snapshots := []
    embeddings :=
      [{ agent_id := "default", memory_id := "m1", model := "mock-1", dim := 3
         vector := [1, 0, 0], created_at := 0, updated_at := 0 },
       { agent_id := "default", memory_id := "m2", model := "mock-1", dim := 3
         vector := [0, 1, 0], created_at := 0, updated_at := 0 }]
    fts := [] }

/-- C2's hybrid-search options: the mock provider, limit 5. -/
def optsC2 : HybridSearchOptions :=
  { agent_id := some "default", limit := some 5
    embeddingProvider := some providerC2 }

/-- The same provider with its document-embedding entry replaced by the
instruction-prefix rule, i.e. the query path the specification (and the
repository's own hybrid test) prescribe. -/
def providerC2perSpec : EmbeddingProvider :=
  { providerC2 with embed := fun q => reqC2 (buildQueryInput q (some "test")) }

/-- C2's options with the per-spec provider. -/
def optsC2perSpec : HybridSearchOptions :=
  { agent_id := some "default", limit := some 5
    embeddingProvider := some providerC2perSpec }

/-- The single row of `dbC3` (hash column consistent:
`contentHash envA "original" = "original"`). -/
def memC8 : MemoryRow :=
  mkMem "m1" "original" .knowledge 2 "default" (some "original") 1 90

/-- State for C3/C8-style rollback runs: one memory `m1` with content
`original` and its tokenized full-text row. -/
def dbC3 : Db :=
  { memories := [memC8]
    paths := []
    links := []
    snapshots := []
    embeddings := []
    fts := [{ id := "m1", content := "original" }] }

/-- C3 step 1: snapshot `m1` (as the callers do before an update). -/
def dbC3afterSnap : Db :=
  match createSnapshot "s1" 1 dbC3 "m1" .update (some "test") with
  | some p => p.2
  | none => dbC3

/-- C3 step 2: overwrite the content with `modified` (this refreshes the
hash column). -/
def dbC3afterUpdate : Db :=
  (updateMemory envA 2 dbC3afterSnap "m1" { content := some "modified" }).2

/-- C3 step 3: roll `m1` back to the snapshot. -/
def dbC3afterRollback : Db :=
  match rollback envA "s2" 3 dbC3afterUpdate "s1" with
  | some p => p.2
  | none => dbC3afterUpdate

/-- The effect of one decay pass on a single memory row (derived
characterization of `runDecay`, proved in `runDecay_memories_eq`):
priority-0 rows are left alone; otherwise the Ebbinghaus vitality is
recomputed and the row is rewritten — vitality and `updated_at` only — when
it moved by more than 0.001. -/
def decayRow (env : Env) (t : ℚ) (m : MemoryRow) : MemoryRow :=
  if m.priority = 0 then m
  else
    let newV := calculateVitality env m.stability ((t - decayReference m) / 86400000)
      m.priority
    if |newV - m.vitality| > 1/1000 then { m with vitality := newV, updated_at := t }
    else m

/-- The per-row effect of processing decay candidate `c` on an arbitrary
row `x` (candidate data decides the touch, `id` equality decides the
target). -/
def rowStep (env : Env) (t : ℚ) (c : MemoryRow) (x : MemoryRow) : MemoryRow :=
  let newV := calculateVitality env c.stability ((t - decayReference c) / 86400000)
    c.priority
  if |newV - c.vitality| > 1/1000 then
    (if x.id == c.id then { x with vitality := newV, updated_at := t } else x)
  else x

/-- Witness state for C4: a P0 row and a P1 row (stability 365, never
accessed, created at t = 5). -/
def dbW4 : Db :=
  { memories :=
      [mkMem "w4a" "identity row" .identity 0 "default" (some "ha") 1 999999,
       mkMem "w4b" "emotion row" .emotion 1 "default" (some "hb") 1 365 0 none 5 5]
    paths := [], links := [], snapshots := [], embeddings := [], fts := [] }

/-- Witness state for C10: one P2 row last accessed at time 0 and last
updated at time 3. -/
def dbW10 : Db :=
  { memories :=
      [mkMem "w10" "knowledge row" .knowledge 2 "default" (some "hc") 1 90 0
        (some 0) 0 3]
    paths := [], links := [], snapshots := [], embeddings := [], fts := [] }

/-- Witness memory for C6 (its hash column equals
`contentHash envA "dup content"`). -/
def memW6 : MemoryRow :=
  mkMem "w6" "dup content" .event 3 "default" (some "dup content")

/-- Witness state for C6. -/
def dbW6 : Db :=
  { memories := [memW6], paths := [], links := [], snapshots := []
    embeddings := [], fts := [{ id := "w6", content := "dup content" }] }

/-- Witness input for C6: same content, same (default) tenant. -/
def inputW6 : GuardInput := { content := "dup content", type := .event }

/-- Witness id supply for C5. -/
def w5ids (n : Nat) : String := "t" ++ toString n

/-- Witness rows for C5: a P0 row and a P3 row, both at vitality 0.01. -/
def memW5a : MemoryRow :=
  mkMem "w5a" "keep me" .identity 0 "default" (some "h5a") (1/100) 999999

def memW5b : MemoryRow :=
  mkMem "w5b" "drop me" .event 3 "default" (some "h5b") (1/100) 14

/-- Witness state for C5. -/
def dbW5 : Db :=
  { memories := [memW5a, memW5b], paths := [], links := [], snapshots := []
    embeddings := []
    fts := [{ id := "w5a", content := "keep me" }, { id := "w5b", content := "drop me" }] }

section RatEval

attribute [local semireducible] Rat.add Rat.mul Rat.inv Rat.sub

/-- C1: the Write Guard URI-conflict stage is **not** tenant-scoped: for an
input of tenant `"a"` whose hash matches no memory of tenant `"a"` and for
which no path row with the supplied URI exists in tenant `"a"` (the only
`core://x` path belongs to tenant `"default"`), `guard` nevertheless
returns `update`, targeting the `"default"`-tenant memory behind that
foreign path — because guard.ts calls `getPathByUri(db, input.uri)` without
passing the input's `agent_id`. -/
theorem C1_guard_uri_conflict_ignores_tenant :
    (guard envA dbC1 inputC1).action = GuardAction.update ∧
    (guard envA dbC1 inputC1).existingId = some "m-def" ∧
    dbC1.paths.filter (fun p => p.agent_id == "a") = [] ∧
    (getMemory dbC1 "m-def").map (fun m => m.agent_id) = some "default" := by
  decide

/-- C2: `searchHybrid` obtains the query vector from
`provider.embed(query)` — the raw query text — not from the
instruction-prefix rule.  With `instructionPrefix = "test"` the rule's input
text is `Instruct: test\nQuery: 开心` and the provider's `embedQuery` maps
it to `[1,0,0]` (the vector of `m1`), yet the search embeds the bare query
(vector `[0,1,0]`) and therefore ranks `m2` first; running the same search
with the query side routed through the instruction-prefix rule ranks `m1`
first.  (The repository's own test asserts that `embedQuery` is used.) -/
theorem C2_hybrid_embeds_raw_query :
    ((searchHybrid envA dbC2 "开心" optsC2).map (fun r => r.memory.id)) = ["m2", "m1"] ∧
    providerC2.embed "开心" = [0, 1, 0] ∧
    (providerC2.embedQuery.map (fun f => f "开心")) = some [1, 0, 0] ∧
    buildQueryInput "开心" providerC2.instruction = "Instruct: test\nQuery: 开心" ∧
    ((searchHybrid envA dbC2 "开心" optsC2perSpec).map (fun r => r.memory.id)) =
      ["m1", "m2"] := by
  decide

/-- C3: `rollback` restores the content but leaves the `hash` column at the
value computed from the pre-rollback content: after snapshotting
`original`, updating to `modified` and rolling back, the row's content is
`original` while its hash is still `contentHash envA "modified"`
(= `"modified"` under `envA`'s digest), not
`contentHash envA "original"`. -/
theorem C3_rollback_leaves_stale_hash :
    (getMemory dbC3afterRollback "m1").map (fun m => m.content) = some "original" ∧
    (getMemory dbC3afterRollback "m1").map (fun m => m.hash) =
      some (some "modified") ∧
    contentHash envA "original" = "original" ∧
    contentHash envA "modified" = "modified" ∧
    ("modified" : String) ≠ "original" := by
  decide

end RatEval

/-! ## Characterization of the decay pass -/

/-- `rowStep` never changes the id of a row. -/
theorem rowStep_id (env : Env) (t : ℚ) (c x : MemoryRow) :
    (rowStep env t c x).id = x.id := by
  unfold rowStep
  dsimp only
  split <;> [skip; rfl]
  split <;> rfl

/-- A candidate whose id differs from the row's leaves the row alone. -/
theorem rowStep_ne (env : Env) (t : ℚ) (c x : MemoryRow) (h : c.id ≠ x.id) :
    rowStep env t c x = x := by
  unfold rowStep
  dsimp only
  split
  · have hx : (x.id == c.id) = false := by
      simp only [beq_eq_false_iff_ne, ne_eq]
      exact fun hxc => h hxc.symm
    simp [hx]
  · rfl

/-- One step of the `runDecay` loop, componentwise: the store's memories
are mapped through `rowStep` and every other table is untouched. -/
theorem runDecayStep_db (env : Env) (t : ℚ) (rep : DecayReport) (d : Db)
    (c : MemoryRow) :
    (runDecayStep env t (rep, d) c).2 =
      { d with memories := d.memories.map (rowStep env t c) } := by
  unfold runDecayStep
  dsimp only
  split
  next h =>
    dsimp only
    unfold updateWhereId
    congr 1
    apply List.map_congr_left
    intro a _
    unfold rowStep
    dsimp only
    rw [if_pos h]
  next h =>
    dsimp only
    have hall : ∀ a ∈ d.memories, rowStep env t c a = a := by
      intro a _
      unfold rowStep
      dsimp only
      rw [if_neg h]
    rw [List.map_congr_left hall, List.map_id']

/-- The decay fold, componentwise: memories are mapped through the
composite of the per-candidate row steps; every other table is untouched. -/
theorem runDecay_foldl (env : Env) (t : ℚ) (cands : List MemoryRow) :
    ∀ (rep : DecayReport) (d : Db),
    (cands.foldl (runDecayStep env t) (rep, d)).2 =
      { d with memories :=
          d.memories.map (fun a => cands.foldl (fun x c => rowStep env t c x) a) } := by
  induction cands with
  | nil => intro rep d; simp
  | cons c cs ih =>
    intro rep d
    rw [List.foldl_cons]
    have hsplit : cs.foldl (runDecayStep env t) (runDecayStep env t (rep, d) c) =
        cs.foldl (runDecayStep env t)
          ((runDecayStep env t (rep, d) c).1, (runDecayStep env t (rep, d) c).2) := by
      rfl
    rw [hsplit, ih, runDecayStep_db]
    simp only [List.map_map, List.foldl_cons]
    rfl

/-- A row none of whose candidate ids match is left alone by the per-row
fold. -/
theorem foldl_rowStep_of_not_mem (env : Env) (t : ℚ) :
    ∀ (cs : List MemoryRow) (x : MemoryRow), (∀ c ∈ cs, c.id ≠ x.id) →
      cs.foldl (fun y c => rowStep env t c y) x = x := by
  intro cs
  induction cs with
  | nil => intro x _; rfl
  | cons c cs ih =>
    intro x h
    rw [List.foldl_cons, rowStep_ne env t c x (h c (List.mem_cons_self c cs))]
    exact ih x (fun c' hc' => h c' (List.mem_cons_of_mem c hc'))

/-- The per-row decay fold over a candidate list with pairwise-distinct ids
in which any candidate sharing the row's id is the row itself: the row is
rewritten once (by its own candidate entry) if it is a candidate, and left
alone otherwise. -/
theorem foldl_rowStep_eq (env : Env) (t : ℚ) :
    ∀ (cs : List MemoryRow) (a : MemoryRow),
      ((cs.map (fun m => m.id)).Nodup) →
      (∀ c ∈ cs, c.id = a.id → c = a) →
      cs.foldl (fun y c => rowStep env t c y) a =
        if a ∈ cs then rowStep env t a a else a := by
  intro cs
  induction cs with
  | nil => intro a _ _; simp
  | cons c cs ih =>
    intro a hnd hinj
    rw [List.foldl_cons]
    by_cases hca : c.id = a.id
    · have hc : c = a := hinj c (List.mem_cons_self c cs) hca
      rw [hc]
      have hnotin : ∀ c' ∈ cs, c'.id ≠ (rowStep env t a a).id := by
        intro c' hc'
        rw [rowStep_id]
        have h2 := hnd
        rw [hc] at h2
        simp only [List.map_cons, List.nodup_cons] at h2
        intro hEq
        exact h2.1 (hEq ▸ List.mem_map_of_mem (fun m => m.id) hc')
      rw [foldl_rowStep_of_not_mem env t cs (rowStep env t a a) hnotin]
      rw [if_pos (List.mem_cons_self a cs)]
    · rw [rowStep_ne env t c a hca]
      have hnd' : (cs.map (fun m => m.id)).Nodup := by
        simp only [List.map_cons, List.nodup_cons] at hnd
        exact hnd.2
      have hinj' : ∀ c' ∈ cs, c'.id = a.id → c' = a := by
        intro c' hc' h'
        exact hinj c' (List.mem_cons_of_mem c hc') h'
      rw [ih a hnd' hinj']
      have hne : a ≠ c := fun h => hca (h ▸ rfl)
      by_cases hmem : a ∈ cs
      · rw [if_pos hmem, if_pos (List.mem_cons_of_mem c hmem)]
      · rw [if_neg hmem, if_neg (by
          intro h
          rcases List.mem_cons.mp h with h1 | h2
          · exact hne h1
          · exact hmem h2)]

/-- The decay pass, characterized row by row: provided the table's ids are
pairwise distinct (the `memories` primary key), the resulting store is the
original with every memory row replaced by `decayRow` of itself, all other
tables unchanged. -/
theorem runDecay_memories_eq (env : Env) (t : ℚ) (db : Db)
    (hnd : (db.memories.map (fun m => m.id)).Nodup) :
    (runDecay env t db).2 = { db with memories := db.memories.map (decayRow env t) } := by
  unfold runDecay
  dsimp only
  rw [runDecay_foldl]
  congr 1
  apply List.map_congr_left
  intro a ha
  have hinj := List.inj_on_of_nodup_map hnd
  have hsub : ∀ c ∈ db.memories.filter (fun m => m.priority > 0), c ∈ db.memories := by
    intro c hc
    exact List.mem_of_mem_filter hc
  have hndf : ((db.memories.filter (fun m => m.priority > 0)).map
      (fun m => m.id)).Nodup := by
    apply List.Nodup.sublist _ hnd
    exact List.Sublist.map _ (List.filter_sublist _)
  have hinjf : ∀ c ∈ db.memories.filter (fun m => m.priority > 0),
      c.id = a.id → c = a := by
    intro c hc hid
    exact hinj (hsub c hc) ha hid
  rw [foldl_rowStep_eq env t _ a hndf hinjf]
  by_cases hp : a.priority = 0
  · rw [if_neg, decayRow, if_pos hp]
    intro hmem
    have := List.of_mem_filter hmem
    simp only [decide_eq_true_eq] at this
    omega
  · rw [if_pos, decayRow, if_neg hp]
    · unfold rowStep
      simp only [beq_self_eq_true, if_true]
    · apply List.mem_filter.mpr
      refine ⟨ha, ?_⟩
      simp only [decide_eq_true_eq]
      omega

/-- C4: for every memory with priority > 0 a decay pass sets vitality to
`max(priority floor, exp(-Δdays / max(stability, 0.01)))` — Δdays measured
from `last_accessed` if present, else `created_at` — and writes the row
(vitality and `updated_at`) only when new and old vitality differ by more
than 0.001; priority-0 rows are never touched, no row's vitality is ever
lowered below its priority floor, and the floors are
{P0: 1.0, P1: 0.3, P2: 0.1, P3: 0.0}. -/
theorem C4_decay_formula (env : Env) (t : ℚ) (db : Db)
    (hnd : (db.memories.map (fun m => m.id)).Nodup) :
    (runDecay env t db).2.memories = db.memories.map (decayRow env t) ∧
    (∀ m ∈ db.memories, m.priority = 0 → decayRow env t m = m) ∧
    (∀ m ∈ db.memories, m.priority ≠ 0 →
      decayRow env t m =
        (if |max (MIN_VITALITY m.priority)
              (env.exp (-((t - m.last_accessed.getD m.created_at) / 86400000) /
                max (1/100) m.stability)) - m.vitality| > 1/1000 then
          { m with
            vitality := max (MIN_VITALITY m.priority)
              (env.exp (-((t - m.last_accessed.getD m.created_at) / 86400000) /
                max (1/100) m.stability))
            updated_at := t }
        else m)) ∧
    (∀ m ∈ db.memories,
      min m.vitality (MIN_VITALITY m.priority) ≤ (decayRow env t m).vitality) ∧
    MIN_VITALITY 0 = 1 ∧ MIN_VITALITY 1 = 3/10 ∧ MIN_VITALITY 2 = 1/10 ∧
    MIN_VITALITY 3 = 0 := by
  have h1 : (runDecay env t db).2.memories = db.memories.map (decayRow env t) := by
    rw [runDecay_memories_eq env t db hnd]
  refine ⟨h1, ?_, ?_, ?_, rfl, rfl, rfl, rfl⟩
  · intro m _ hp
    simp [decayRow, hp]
  · intro m _ hp
    simp only [decayRow, calculateVitality, decayReference]
    rw [if_neg hp, if_neg hp]
  · intro m _
    by_cases hp : m.priority = 0
    · simp only [decayRow, if_pos hp]
      exact min_le_left _ _
    · simp only [decayRow, if_neg hp]
      split
      · simp only [calculateVitality, if_neg hp]
        exact le_trans (min_le_right _ _) (le_max_left _ _)
      · exact min_le_left _ _

/-- C10: a decay pass maps every memory row through `decayRow` and leaves
every other table untouched; `decayRow` preserves all columns except
vitality and `updated_at`, and every row it does rewrite (vitality moved by
more than 0.001) gets `updated_at` stamped with the decay time — so decay
perturbs orderings and recency weights keyed on `updated_at`. -/
theorem C10_decay_frame (env : Env) (t : ℚ) (db : Db)
    (hnd : (db.memories.map (fun m => m.id)).Nodup) :
    (runDecay env t db).2.memories = db.memories.map (decayRow env t) ∧
    (runDecay env t db).2.paths = db.paths ∧
    (runDecay env t db).2.links = db.links ∧
    (runDecay env t db).2.snapshots = db.snapshots ∧
    (runDecay env t db).2.embeddings = db.embeddings ∧
    (runDecay env t db).2.fts = db.fts ∧
    ∀ m ∈ db.memories,
      ((decayRow env t m).id = m.id ∧
       (decayRow env t m).content = m.content ∧
       (decayRow env t m).type = m.type ∧
       (decayRow env t m).priority = m.priority ∧
       (decayRow env t m).emotion_val = m.emotion_val ∧
       (decayRow env t m).stability = m.stability ∧
       (decayRow env t m).access_count = m.access_count ∧
       (decayRow env t m).last_accessed = m.last_accessed ∧
       (decayRow env t m).created_at = m.created_at ∧
       (decayRow env t m).source = m.source ∧
       (decayRow env t m).agent_id = m.agent_id ∧
       (decayRow env t m).hash = m.hash) ∧
      (decayRow env t m = m ∨
        ((decayRow env t m).updated_at = t ∧
          |(decayRow env t m).vitality - m.vitality| > 1/1000)) := by
  have h := runDecay_memories_eq env t db hnd
  rw [h]
  refine ⟨rfl, rfl, rfl, rfl, rfl, rfl, ?_⟩
  intro m _
  constructor
  · unfold decayRow
    by_cases hp : m.priority = 0
    · rw [if_pos hp]
      exact ⟨rfl, rfl, rfl, rfl, rfl, rfl, rfl, rfl, rfl, rfl, rfl, rfl⟩
    · rw [if_neg hp]
      dsimp only
      split
      · exact ⟨rfl, rfl, rfl, rfl, rfl, rfl, rfl, rfl, rfl, rfl, rfl, rfl⟩
      · exact ⟨rfl, rfl, rfl, rfl, rfl, rfl, rfl, rfl, rfl, rfl, rfl, rfl⟩
  · unfold decayRow
    by_cases hp : m.priority = 0
    · rw [if_pos hp]
      exact Or.inl rfl
    · rw [if_neg hp]
      dsimp only
      split
      next htouch => exact Or.inr ⟨rfl, htouch⟩
      next => exact Or.inl rfl

section RatEvalB

attribute [local semireducible] Rat.add Rat.mul Rat.inv Rat.sub

/-- Witness for C4 at a concrete store and time (`envA.exp` is the
constant 1/2, so the P1 row moves from vitality 1 to
`max(0.3, 1/2) = 1/2` and the P0 row stays untouched). -/
theorem C4_decay_formula_witness :
    ((dbW4.memories.map (fun m => m.id)).Nodup) ∧
    (runDecay envA 5 dbW4).2.memories = dbW4.memories.map (decayRow envA 5) ∧
    ((runDecay envA 5 dbW4).2.memories.map (fun m => m.vitality)) = [1, 1/2] :=
  ⟨by decide, (C4_decay_formula envA 5 dbW4 (by decide)).1, by decide⟩

/-- Witness for C10 at a concrete store: the single touched P2 row keeps
its content but gets `updated_at` rewritten to the decay time 7. -/
theorem C10_decay_frame_witness :
    ((dbW10.memories.map (fun m => m.id)).Nodup) ∧
    (runDecay envA 7 dbW10).2.paths = dbW10.paths ∧
    ((runDecay envA 7 dbW10).2.memories.map (fun m => m.updated_at)) = [7] ∧
    ((runDecay envA 7 dbW10).2.memories.map (fun m => m.content)) =
      ["knowledge row"] :=
  ⟨by decide, (C10_decay_frame envA 7 dbW10 (by decide)).2.1, by decide, by decide⟩

end RatEvalB

/-- C6: duplicate content is a classified no-op, never an error.  When some
memory of the input's tenant carries the input's content hash, `guard`
returns `skip` with that memory's id, `createMemory` returns `null`
leaving the store byte-for-byte unchanged, and repeating the
`createMemory` attempt any number of times still leaves the store unchanged
with `guard` still answering the same `skip` (guard itself performs no
mutation — it is a pure function of the store). -/
theorem C6_duplicate_noop (env : Env) (db : Db) (input : GuardInput)
    (m : MemoryRow) (fid : String) (ts : ℚ)
    (hfind : db.memories.find? (fun x =>
      x.hash == some (contentHash env input.content) &&
      x.agent_id == input.agent_id.getD "default") = some m) :
    guard env db input =
      { action := .skip, reason := "Exact duplicate (hash match)"
        existingId := some m.id, mergedContent := none } ∧
    createMemory env fid ts db input.toCreateMemoryInput = (none, db) ∧
    ∀ n : Nat,
      (fun d => (createMemory env fid ts d input.toCreateMemoryInput).2)^[n] db = db ∧
      guard env
          ((fun d => (createMemory env fid ts d input.toCreateMemoryInput).2)^[n] db)
          input =
        { action := .skip, reason := "Exact duplicate (hash match)"
          existingId := some m.id, mergedContent := none } := by
  have hg : guard env db input =
      { action := .skip, reason := "Exact duplicate (hash match)"
        existingId := some m.id, mergedContent := none } := by
    unfold guard
    dsimp only
    rw [hfind]
  have hc0 : createMemory env fid ts db input.toCreateMemoryInput = (none, db) := by
    unfold createMemory
    dsimp only
    rw [hfind]
  have hstep : (fun d => (createMemory env fid ts d input.toCreateMemoryInput).2) db
      = db := by
    dsimp only
    rw [hc0]
  have hiter : ∀ n : Nat,
      (fun d => (createMemory env fid ts d input.toCreateMemoryInput).2)^[n] db = db := by
    intro n
    induction n with
    | zero => rfl
    | succ k ih =>
      rw [Function.iterate_succ_apply', ih]
      show (createMemory env fid ts db input.toCreateMemoryInput).2 = db
      rw [hc0]
  exact ⟨hg, hc0, fun n => ⟨hiter n, by rw [hiter n]; exact hg⟩⟩

section RatEvalC

attribute [local semireducible] Rat.add Rat.mul Rat.inv Rat.sub

/-- Witness for C6 on a concrete store holding `dup content`. -/
theorem C6_duplicate_noop_witness :
    (guard envA dbW6 inputW6).action = GuardAction.skip ∧
    (guard envA dbW6 inputW6).existingId = some "w6" ∧
    createMemory envA "fresh" 9 dbW6 inputW6.toCreateMemoryInput = (none, dbW6) :=
  have h := C6_duplicate_noop envA dbW6 inputW6 memW6 "fresh" 9 (by decide)
  ⟨by rw [h.1], by rw [h.1]; rfl, h.2.1⟩

end RatEvalC

/-! ## Lookup lemmas for by-id updates -/

/-- Looking a row up by id commutes with an id-preserving by-id update. -/
theorem find?_id_updateWhereId (l : List MemoryRow) (i j : String)
    (f : MemoryRow → MemoryRow) (hf : ∀ x : MemoryRow, x.id = i → (f x).id = x.id) :
    (updateWhereId l i f).find? (fun x => x.id == j) =
      (l.find? (fun x => x.id == j)).map (fun x => if x.id == i then f x else x) := by
  induction l with
  | nil => rfl
  | cons a l ih =>
    unfold updateWhereId at ih ⊢
    rw [List.map_cons]
    have hgid : (if a.id == i then f a else a).id = a.id := by
      split
      next h => exact hf a (by simpa using h)
      next => rfl
    by_cases ha : (a.id == j) = true
    · rw [@List.find?_cons_of_pos _ (fun x => x.id == j)
          (if a.id == i then f a else a) (List.map _ l)
          (by simp only [hgid]; exact ha),
        @List.find?_cons_of_pos _ (fun x => x.id == j) a l ha]
      rfl
    · rw [@List.find?_cons_of_neg _ (fun x => x.id == j)
          (if a.id == i then f a else a) (List.map _ l)
          (by simp only [hgid]; exact ha),
        @List.find?_cons_of_neg _ (fun x => x.id == j) a l ha]
      exact ih

/-- `find?` skips a prefix on which the predicate fails everywhere. -/
theorem find?_append_of_none {α} {p : α → Bool} (l₁ l₂ : List α)
    (h : ∀ a ∈ l₁, ¬ p a = true) : (l₁ ++ l₂).find? p = l₂.find? p := by
  induction l₁ with
  | nil => rfl
  | cons a l ih =>
    rw [List.cons_append,
      List.find?_cons_of_neg _ (h a (List.mem_cons_self a l))]
    exact ih (fun a' ha' => h a' (List.mem_cons_of_mem a ha'))

/-- C8: snapshot round-trip.  For a memory `m` present in the store (and a
fresh snapshot id), creating a snapshot, overwriting the content with `c1`
via `updateMemory`, then rolling back to the snapshot (1) succeeds, (2)
restores the original content, (3) leaves the full-text row for `m`
resynchronized to the tokenization of the restored content, and (4) appends
exactly one new snapshot carrying the modified, pre-rollback content
`c1` (`changed_by = "rollback"`, `action = update`). -/
theorem C8_snapshot_roundtrip (env : Env) (fid1 fid2 : String) (t1 t2 t3 : ℚ)
    (db : Db) (m : MemoryRow) (c1 : String) (chby : Option String)
    (hm : getMemory db m.id = some m)
    (hfid : ∀ s ∈ db.snapshots, ¬ (s.id == fid1) = true) :
    ∃ snap db1 db3,
      createSnapshot fid1 t1 db m.id .update chby = some (snap, db1) ∧
      snap.content = m.content ∧
      rollback env fid2 t3 ((updateMemory env t2 db1 m.id { content := some c1 }).2)
          fid1 =
        some (true, db3) ∧
      (getMemory db3 m.id).map (fun x => x.content) = some m.content ∧
      db3.fts.filter (fun f => f.id == m.id) =
        [{ id := m.id, content := tokenizeForIndex env m.content }] ∧
      db3.snapshots =
        db.snapshots ++
          [{ id := fid1, memory_id := m.id, content := m.content
             changed_by := chby, action := .update, created_at := t1 },
           { id := fid2, memory_id := m.id, content := c1
             changed_by := some "rollback", action := .update, created_at := t3 }] := by
  have hmid : (m.id == m.id) = true := by simp
  -- Step 1: the first snapshot.
  set snapv : SnapshotRow :=
    { id := fid1, memory_id := m.id, content := m.content
      changed_by := chby, action := .update, created_at := t1 } with hsnapv
  set db1 : Db := { db with snapshots := db.snapshots ++ [snapv] } with hdb1
  have h1 : createSnapshot fid1 t1 db m.id .update chby = some (snapv, db1) := by
    unfold createSnapshot
    rw [hm]
  -- Step 2: the content update.
  set updated : MemoryRow :=
    { m with content := c1, hash := some (contentHash env c1), updated_at := t2 }
    with hupdated
  have hm1 : getMemory db1 m.id = some m := hm
  set db2 : Db :=
    { db1 with
      memories := updateWhereId db1.memories m.id (fun _ => updated)
      fts := (db1.fts.filter (fun f => !(f.id == m.id))) ++
        [{ id := m.id, content := tokenizeForIndex env c1 }] } with hdb2
  have h2 : (updateMemory env t2 db1 m.id { content := some c1 }).2 = db2 := by
    unfold updateMemory
    rw [hm1]
    rfl
  -- Step 3: the rollback.
  have hsnapfound : getSnapshot db2 fid1 = some snapv := by
    show (db.snapshots ++ [snapv]).find? (fun s => s.id == fid1) = some snapv
    rw [find?_append_of_none _ _ hfid]
    exact List.find?_cons_of_pos _ (by simp [hsnapv])
  have hmem2 : getMemory db2 m.id = some updated := by
    show (updateWhereId db.memories m.id (fun _ => updated)).find?
      (fun x => x.id == m.id) = some updated
    rw [find?_id_updateWhereId db.memories m.id m.id (fun _ => updated)
      (fun x hx => by simp [hupdated, hx])]
    rw [show db.memories.find? (fun x => x.id == m.id) = some m from hm]
    simp
  set snap2 : SnapshotRow :=
    { id := fid2, memory_id := m.id, content := c1
      changed_by := some "rollback", action := .update, created_at := t3 } with hsnap2
  have h3 : createSnapshot fid2 t3 db2 snapv.memory_id .update (some "rollback") =
      some (snap2, { db2 with snapshots := db2.snapshots ++ [snap2] }) := by
    show createSnapshot fid2 t3 db2 m.id .update (some "rollback") = _
    unfold createSnapshot
    rw [hmem2]
  set db3v : Db :=
    { memories := updateWhereId db2.memories m.id
        (fun x => { x with content := snapv.content, updated_at := t3 })
      paths := db2.paths
      links := db2.links
      snapshots := db2.snapshots ++ [snap2]
      embeddings := db2.embeddings
      fts := (db2.fts.filter (fun f => !(f.id == m.id))) ++
        [{ id := m.id, content := tokenizeForIndex env snapv.content }] } with hdb3v
  refine ⟨snapv, db1, db3v, h1, rfl, ?_, ?_, ?_, ?_⟩
  · rw [h2]
    unfold rollback
    rw [hsnapfound]
    dsimp only
    rw [h3]
  · -- the restored content
    show ((updateWhereId (updateWhereId db.memories m.id (fun _ => updated)) m.id
        (fun x => { x with content := snapv.content, updated_at := t3 })).find?
        (fun x => x.id == m.id)).map (fun x => x.content) = some m.content
    rw [find?_id_updateWhereId (updateWhereId db.memories m.id (fun _ => updated))
      m.id m.id (fun x => { x with content := snapv.content, updated_at := t3 })
      (fun x _ => rfl)]
    rw [find?_id_updateWhereId db.memories m.id m.id (fun _ => updated)
      (fun x hx => by simp [hupdated, hx])]
    rw [show db.memories.find? (fun x => x.id == m.id) = some m from hm]
    simp [hupdated]
  · -- the full-text row
    show (((db1.fts.filter (fun (f : FtsRow) => !(f.id == m.id))) ++
        [({ id := m.id, content := tokenizeForIndex env c1 } : FtsRow)]).filter
          (fun (f : FtsRow) => !(f.id == m.id)) ++
        [({ id := m.id, content := tokenizeForIndex env snapv.content } : FtsRow)]).filter
        (fun (f : FtsRow) => f.id == m.id) =
      [({ id := m.id, content := tokenizeForIndex env m.content } : FtsRow)]
    rw [List.filter_append, List.filter_filter]
    simp
  · -- the snapshot trail
    show (db.snapshots ++ [snapv]) ++ [snap2] = _
    rw [List.append_assoc]
    rfl

/-- Witness for C8 on the concrete store `dbC3`: snapshot `original`,
update to `modified`, roll back. -/
theorem C8_snapshot_roundtrip_witness :
    ∃ snap db1 db3,
      createSnapshot "s1" 1 dbC3 memC8.id .update (some "test") = some (snap, db1) ∧
      snap.content = memC8.content ∧
      rollback envA "s2" 3
          ((updateMemory envA 2 db1 memC8.id { content := some "modified" }).2)
          "s1" =
        some (true, db3) ∧
      (getMemory db3 memC8.id).map (fun x => x.content) = some memC8.content ∧
      db3.fts.filter (fun f => f.id == memC8.id) =
        [{ id := memC8.id, content := tokenizeForIndex envA memC8.content }] ∧
      db3.snapshots =
        dbC3.snapshots ++
          [{ id := "s1", memory_id := memC8.id, content := memC8.content
             changed_by := some "test", action := .update, created_at := 1 },
           { id := "s2", memory_id := memC8.id, content := "modified"
             changed_by := some "rollback", action := .update, created_at := 3 }] :=
  C8_snapshot_roundtrip envA "s1" "s2" 1 2 3 dbC3 memC8 "modified" (some "test")
    (by decide) (by decide)

/-! ## Membership through the stable sort -/

/-- Membership in a stable insertion. -/
theorem mem_insertStable {α} (lt : α → α → Bool) (x : α) :
    ∀ (l : List α) (a : α), a ∈ insertStable lt x l ↔ a = x ∨ a ∈ l := by
  intro l
  induction l with
  | nil => intro a; simp [insertStable]
  | cons b bs ih =>
    intro a
    unfold insertStable
    split
    · simp [or_comm, or_assoc, or_left_comm]
    · simp only [List.mem_cons, ih]
      tauto

/-- Membership is preserved by the stable sort. -/
theorem mem_sortStable {α} (lt : α → α → Bool) (l : List α) (a : α) :
    a ∈ sortStable lt l ↔ a ∈ l := by
  unfold sortStable
  suffices h : ∀ (l' : List α) (acc : List α),
      a ∈ l'.foldl (fun acc x => insertStable lt x acc) acc ↔ a ∈ acc ∨ a ∈ l' by
    rw [h l []]
    simp
  intro l'
  induction l' with
  | nil => intro acc; simp
  | cons b bs ih =>
    intro acc
    rw [List.foldl_cons, ih, mem_insertStable]
    simp only [List.mem_cons]
    tauto

/-! ## Characterization of the tidy pass -/

/-- A successful `createSnapshot` only appends the new snapshot row. -/
theorem createSnapshot_eq (fid : String) (ts : ℚ) (d : Db) (mid : String)
    (act : SnapshotAction) (chby : Option String) (p : SnapshotRow × Db)
    (h : createSnapshot fid ts d mid act chby = some p) :
    p.2 = { d with snapshots := d.snapshots ++ [p.1] } := by
  unfold createSnapshot at h
  split at h
  · exact absurd h (by simp)
  · rw [Option.some_inj] at h
    rw [← h]

/-- The tidy archival loop removes exactly the rows whose ids belong to its
candidate list, regardless of the id supply or counter value. -/
theorem tidy_archive_fold_memories (fids : Nat → String) (ts : ℚ) :
    ∀ (cands : List MemoryRow) (k : Nat) (d : Db),
      ((cands.foldl (fun (acc : Nat × Db) mem =>
          (acc.1 + 1, archiveStep (fids acc.1) ts acc.2 mem.id)) (k, d)).2).memories =
        d.memories.filter (fun m => !(cands.any (fun c => m.id == c.id))) := by
  intro cands
  induction cands with
  | nil =>
    intro k d
    simp
  | cons c cs ih =>
    intro k d
    rw [List.foldl_cons]
    have hsplit : cs.foldl (fun (acc : Nat × Db) mem =>
        (acc.1 + 1, archiveStep (fids acc.1) ts acc.2 mem.id))
          (k + 1, archiveStep (fids k) ts d c.id) =
        cs.foldl (fun (acc : Nat × Db) mem =>
          (acc.1 + 1, archiveStep (fids acc.1) ts acc.2 mem.id))
          ((k + 1, archiveStep (fids k) ts d c.id).1,
            (k + 1, archiveStep (fids k) ts d c.id).2) := rfl
    rw [hsplit, ih]
    have harch : (archiveStep (fids k) ts d c.id).memories =
        d.memories.filter (fun m => !(m.id == c.id)) := by
      unfold archiveStep
      rcases hcs : createSnapshot (fids k) ts d c.id .delete (some "tidy") with _ | p
      · rfl
      · dsimp only
        have hp := createSnapshot_eq (fids k) ts d c.id .delete (some "tidy") p hcs
        show (deleteMemory p.2 c.id).2.memories = _
        rw [hp]
        rfl
    rw [harch, List.filter_filter]
    apply List.filter_congr
    intro m _
    simp only [List.any_cons, Bool.not_or]
    rw [Bool.and_comm]

/-- The snapshot-pruning loop never touches the memories table. -/
theorem prune_fold_memories (maxS : Nat) :
    ∀ (mids : List String) (n : Nat) (d : Db),
      ((mids.foldl (pruneStep maxS) (n, d)).2).memories = d.memories := by
  intro mids
  induction mids with
  | nil => intro n d; rfl
  | cons mid mids ih =>
    intro n d
    rw [List.foldl_cons]
    have hsplit : pruneStep maxS (n, d) mid =
        ((pruneStep maxS (n, d) mid).1, (pruneStep maxS (n, d) mid).2) := rfl
    rw [hsplit, ih]
    rfl

/-- C5: a tidy pass deletes a memory exactly when its vitality is below the
threshold and its priority is ≥ 3 (so every memory of priority ≤ 2
survives), reports the number of archived candidates, and processes each
candidate by first recording a `"delete"` snapshot (`changed_by = "tidy"`,
carrying the memory's content) and then deleting the memory. -/
theorem C5_tidy_archives_only_p3 (fids : Nat → String) (ts : ℚ) (db : Db)
    (thr : ℚ) (maxS : Nat)
    (hnd : (db.memories.map (fun m => m.id)).Nodup) :
    (∀ m : MemoryRow, m ∈ (runTidy fids ts db thr maxS).2.memories ↔
      (m ∈ db.memories ∧ ¬(m.vitality < thr ∧ m.priority ≥ 3))) ∧
    (∀ m ∈ db.memories, m.priority ≤ 2 →
      m ∈ (runTidy fids ts db thr maxS).2.memories) ∧
    (runTidy fids ts db thr maxS).1.archived = (getDecayedMemories db thr).length ∧
    (∀ (fid : String) (d : Db) (mid : String) (mm : MemoryRow),
      getMemory d mid = some mm →
      createSnapshot fid ts d mid .delete (some "tidy") =
        some ({ id := fid, memory_id := mid, content := mm.content
                changed_by := some "tidy", action := .delete, created_at := ts },
          { d with snapshots := d.snapshots ++
              [{ id := fid, memory_id := mid, content := mm.content
                 changed_by := some "tidy", action := .delete, created_at := ts }] }) ∧
      archiveStep fid ts d mid =
        (deleteMemory { d with snapshots := d.snapshots ++
            [{ id := fid, memory_id := mid, content := mm.content
               changed_by := some "tidy", action := .delete, created_at := ts }] }
          mid).2) := by
  have hmems : (runTidy fids ts db thr maxS).2.memories =
      db.memories.filter
        (fun m => !((getDecayedMemories db thr).any (fun c => m.id == c.id))) := by
    unfold runTidy
    dsimp only
    rw [prune_fold_memories]
    dsimp only
    rw [tidy_archive_fold_memories]
  have hmem : ∀ m : MemoryRow, m ∈ (runTidy fids ts db thr maxS).2.memories ↔
      (m ∈ db.memories ∧ ¬(m.vitality < thr ∧ m.priority ≥ 3)) := by
    intro m
    rw [hmems, List.mem_filter]
    constructor
    · rintro ⟨hm, hf⟩
      refine ⟨hm, ?_⟩
      intro hcond
      have hmem : m ∈ getDecayedMemories db thr := by
        unfold getDecayedMemories
        rw [mem_sortStable, List.mem_filter]
        refine ⟨hm, ?_⟩
        simp only [Bool.and_eq_true, decide_eq_true_eq]
        exact ⟨hcond.1, hcond.2⟩
      simp only [Bool.not_eq_true', List.any_eq_false] at hf
      exact absurd (by simp : (m.id == m.id) = true) (by simpa using hf m hmem)
    · rintro ⟨hm, hnc⟩
      refine ⟨hm, ?_⟩
      cases hX : (getDecayedMemories db thr).any (fun c => m.id == c.id) with
      | false => rfl
      | true =>
        exfalso
        rw [List.any_eq_true] at hX
        obtain ⟨c, hc, hcid⟩ := hX
        have h2 := hc
        unfold getDecayedMemories at h2
        rw [mem_sortStable, List.mem_filter] at h2
        have hid : m.id = c.id := by simpa using hcid
        have hceq : c = m := List.inj_on_of_nodup_map hnd h2.1 hm hid.symm
        have h3 := h2.2
        rw [hceq] at h3
        simp only [Bool.and_eq_true, decide_eq_true_eq] at h3
        exact hnc ⟨h3.1, h3.2⟩
  refine ⟨hmem, ?_, ?_, ?_⟩
  · intro m hm hp
    rw [hmem m]
    exact ⟨hm, fun hc => by omega⟩
  · rfl
  · intro fid d mid mm hget
    have hcs : createSnapshot fid ts d mid .delete (some "tidy") =
        some ({ id := fid, memory_id := mid, content := mm.content
                changed_by := some "tidy", action := .delete, created_at := ts },
          { d with snapshots := d.snapshots ++
              [{ id := fid, memory_id := mid, content := mm.content
                 changed_by := some "tidy", action := .delete, created_at := ts }] }) := by
      unfold createSnapshot
      rw [hget]
    refine ⟨hcs, ?_⟩
    unfold archiveStep
    rw [hcs]

section RatEvalD

attribute [local semireducible] Rat.add Rat.mul Rat.inv Rat.sub

/-- Witness for C5: tidying `dbW5` (P0 and P3 rows, both at vitality 0.01)
archives only the P3 row; the P0 row survives. -/
theorem C5_tidy_archives_only_p3_witness :
    (dbW5.memories.map (fun m => m.id)).Nodup ∧
    memW5a ∈ (runTidy w5ids 11 dbW5 (1/20) 10).2.memories ∧
    ((runTidy w5ids 11 dbW5 (1/20) 10).2.memories.map (fun m => m.id)) = ["w5a"] ∧
    (runTidy w5ids 11 dbW5 (1/20) 10).1.archived = 1 :=
  ⟨by decide,
   ((C5_tidy_archives_only_p3 w5ids 11 dbW5 (1/20) 10 (by decide)).1 memW5a).mpr
     ⟨by decide, by decide⟩,
   by decide, by decide⟩

end RatEvalD

/-! ## Characterization of the governance pass -/

/-- A governance pass over a store that has no agent-scoped orphan paths,
no agent-scoped orphan links and no agent-scoped empty memories is a no-op
reporting zeros. -/
theorem govern_some_noop (d : Db) (a : String)
    (h1 : ∀ p ∈ d.paths, (!(p.agent_id == a) ||
      ((d.memories.filter (fun m => m.agent_id == a)).map
        (fun m => m.id)).contains p.memory_id) = true)
    (h2 : ∀ l ∈ d.links, (!(l.agent_id == a) ||
      (((d.memories.filter (fun m => m.agent_id == a)).map
          (fun m => m.id)).contains l.source_id &&
        ((d.memories.filter (fun m => m.agent_id == a)).map
          (fun m => m.id)).contains l.target_id)) = true)
    (h3 : ∀ m ∈ d.memories, (m.agent_id == a && strTrim m.content == "") = false) :
    runGovern d (some a) =
      ({ orphanPaths := 0, orphanLinks := 0, emptyMemories := 0 }, d) := by
  have hkp : d.paths.filter (fun p => !(p.agent_id == a) ||
      ((d.memories.filter (fun m => m.agent_id == a)).map
        (fun m => m.id)).contains p.memory_id) = d.paths :=
    List.filter_eq_self.mpr h1
  have hkl : d.links.filter (fun l => !(l.agent_id == a) ||
      (((d.memories.filter (fun m => m.agent_id == a)).map
          (fun m => m.id)).contains l.source_id &&
        ((d.memories.filter (fun m => m.agent_id == a)).map
          (fun m => m.id)).contains l.target_id)) = d.links :=
    List.filter_eq_self.mpr h2
  have hke : d.memories.filter
      (fun m => m.agent_id == a && strTrim m.content == "") = [] := by
    rw [List.filter_eq_nil_iff]
    intro m hm
    rw [h3 m hm]
    simp
  have hkr : d.memories.filter
      (fun m => !(m.agent_id == a && strTrim m.content == "")) = d.memories := by
    apply List.filter_eq_self.mpr
    intro m hm
    rw [h3 m hm]
    rfl
  have hcasc : ∀ (x : Db), cascadeDeleteMemoryRefs x ([] : List String) = x := by
    intro x
    unfold cascadeDeleteMemoryRefs
    have hp : x.paths.filter
        (fun p => !(([] : List String).contains p.memory_id)) = x.paths :=
      List.filter_eq_self.mpr (fun p _ => rfl)
    have hl : x.links.filter (fun l => !(([] : List String).contains l.source_id) &&
        !(([] : List String).contains l.target_id)) = x.links :=
      List.filter_eq_self.mpr (fun l _ => rfl)
    have hs : x.snapshots.filter
        (fun s => !(([] : List String).contains s.memory_id)) = x.snapshots :=
      List.filter_eq_self.mpr (fun s _ => rfl)
    have he : x.embeddings.filter
        (fun e => !(([] : List String).contains e.memory_id)) = x.embeddings :=
      List.filter_eq_self.mpr (fun e _ => rfl)
    rw [hp, hl, hs, he]
  unfold runGovern
  dsimp only
  rw [hkp, hkl, hke, hkr, Nat.sub_self, Nat.sub_self]
  dsimp only [List.map_nil, List.length_nil]
  rw [hcasc]

/-- A governance pass over a store that has no orphan paths, no orphan
links and no empty memories is a no-op reporting zeros (unscoped branch). -/
theorem govern_none_noop (d : Db)
    (h1 : ∀ p ∈ d.paths,
      ((d.memories.map (fun m => m.id)).contains p.memory_id) = true)
    (h2 : ∀ l ∈ d.links,
      ((d.memories.map (fun m => m.id)).contains l.source_id &&
        (d.memories.map (fun m => m.id)).contains l.target_id) = true)
    (h3 : ∀ m ∈ d.memories, (strTrim m.content == "") = false) :
    runGovern d none =
      ({ orphanPaths := 0, orphanLinks := 0, emptyMemories := 0 }, d) := by
  have hkp : d.paths.filter (fun p =>
      (d.memories.map (fun m => m.id)).contains p.memory_id) = d.paths :=
    List.filter_eq_self.mpr h1
  have hkl : d.links.filter (fun l =>
      (d.memories.map (fun m => m.id)).contains l.source_id &&
        (d.memories.map (fun m => m.id)).contains l.target_id) = d.links :=
    List.filter_eq_self.mpr h2
  have hke : d.memories.filter (fun m => strTrim m.content == "") = [] := by
    rw [List.filter_eq_nil_iff]
    intro m hm
    rw [h3 m hm]
    simp
  have hkr : d.memories.filter (fun m => !(strTrim m.content == "")) = d.memories := by
    apply List.filter_eq_self.mpr
    intro m hm
    rw [h3 m hm]
    rfl
  have hcasc : ∀ (x : Db), cascadeDeleteMemoryRefs x ([] : List String) = x := by
    intro x
    unfold cascadeDeleteMemoryRefs
    have hp : x.paths.filter
        (fun p => !(([] : List String).contains p.memory_id)) = x.paths :=
      List.filter_eq_self.mpr (fun p _ => rfl)
    have hl : x.links.filter (fun l => !(([] : List String).contains l.source_id) &&
        !(([] : List String).contains l.target_id)) = x.links :=
      List.filter_eq_self.mpr (fun l _ => rfl)
    have hs : x.snapshots.filter
        (fun s => !(([] : List String).contains s.memory_id)) = x.snapshots :=
      List.filter_eq_self.mpr (fun s _ => rfl)
    have he : x.embeddings.filter
        (fun e => !(([] : List String).contains e.memory_id)) = x.embeddings :=
      List.filter_eq_self.mpr (fun e _ => rfl)
    rw [hp, hl, hs, he]
  unfold runGovern
  dsimp only
  rw [hkp, hkl, hke, hkr, Nat.sub_self, Nat.sub_self]
  dsimp only [List.map_nil, List.length_nil]
  rw [hcasc]

/-- An id that belongs to some agent-`a` memory and to no deleted (empty,
agent-`a`) memory still belongs to an agent-`a` memory after the
empty-memory deletion. -/
theorem govern_surviving_id (db : Db) (a : String) (x : String)
    (hx : (((db.memories.filter (fun m => m.agent_id == a)).map
      (fun m => m.id)).contains x) = true)
    (hnd : (!(((db.memories.filter
      (fun m => m.agent_id == a && strTrim m.content == "")).map
        (fun m => m.id)).contains x)) = true) :
    ((((db.memories.filter (fun m => !(m.agent_id == a && strTrim m.content == ""))).filter
      (fun m => m.agent_id == a)).map (fun m => m.id)).contains x) = true := by
  have hx' : x ∈ (db.memories.filter (fun m => m.agent_id == a)).map
      (fun m => m.id) := by simpa using hx
  rw [List.mem_map] at hx'
  obtain ⟨m, hmf, hmid⟩ := hx'
  rw [List.mem_filter] at hmf
  obtain ⟨hmdb, hma⟩ := hmf
  cases he : (strTrim m.content == "") with
  | true =>
    exfalso
    have hmm : x ∈ (db.memories.filter
        (fun m => m.agent_id == a && strTrim m.content == "")).map
        (fun m => m.id) := by
      rw [List.mem_map]
      refine ⟨m, List.mem_filter.mpr ⟨hmdb, ?_⟩, hmid⟩
      rw [Bool.and_eq_true]
      exact ⟨hma, he⟩
    have hcon : (((db.memories.filter
        (fun m => m.agent_id == a && strTrim m.content == "")).map
          (fun m => m.id)).contains x) = true := by simpa using hmm
    rw [hcon] at hnd
    simp at hnd
  | false =>
    have hmm : x ∈ ((db.memories.filter
        (fun m => !(m.agent_id == a && strTrim m.content == ""))).filter
        (fun m => m.agent_id == a)).map (fun m => m.id) := by
      rw [List.mem_map]
      refine ⟨m, ?_, hmid⟩
      rw [List.mem_filter]
      refine ⟨List.mem_filter.mpr ⟨hmdb, ?_⟩, hma⟩
      simp [hma, he]
    simpa using hmm

/-- Unscoped version of `govern_surviving_id`. -/
theorem govern_surviving_id_none (db : Db) (x : String)
    (hx : ((db.memories.map (fun m => m.id)).contains x) = true)
    (hnd : (!(((db.memories.filter (fun m => strTrim m.content == "")).map
        (fun m => m.id)).contains x)) = true) :
    (((db.memories.filter (fun m => !(strTrim m.content == ""))).map
      (fun m => m.id)).contains x) = true := by
  have hx' : x ∈ db.memories.map (fun m => m.id) := by simpa using hx
  rw [List.mem_map] at hx'
  obtain ⟨m, hmdb, hmid⟩ := hx'
  cases he : (strTrim m.content == "") with
  | true =>
    exfalso
    have hmm : x ∈ (db.memories.filter (fun m => strTrim m.content == "")).map
        (fun m => m.id) := by
      rw [List.mem_map]
      exact ⟨m, List.mem_filter.mpr ⟨hmdb, he⟩, hmid⟩
    have hcon : (((db.memories.filter (fun m => strTrim m.content == "")).map
        (fun m => m.id)).contains x) = true := by simpa using hmm
    rw [hcon] at hnd
    simp at hnd
  | false =>
    have hmm : x ∈ (db.memories.filter (fun m => !(strTrim m.content == ""))).map
        (fun m => m.id) := by
      rw [List.mem_map]
      refine ⟨m, List.mem_filter.mpr ⟨hmdb, ?_⟩, hmid⟩
      simp [he]
    simpa using hmm

/-- C9: governance is idempotent.  Immediately after a completed
`runGovern` over a scope, running it again over the same scope deletes no
rows and reports zero orphan paths, zero orphan links and zero empty
memories — the empty-memory deletions of the first run cascade to their
paths and links, so they leave no new orphans behind. -/
theorem C9_govern_idempotent (db : Db) (agentId : Option String) :
    runGovern (runGovern db agentId).2 agentId =
      ({ orphanPaths := 0, orphanLinks := 0, emptyMemories := 0 },
        (runGovern db agentId).2) := by
  cases agentId with
  | some a =>
    apply govern_some_noop
    · -- no orphan paths remain
      intro p hp
      have hp' : p ∈ (db.paths.filter (fun p => !(p.agent_id == a) ||
          ((db.memories.filter (fun m => m.agent_id == a)).map
            (fun m => m.id)).contains p.memory_id)).filter
          (fun p => !(((db.memories.filter
            (fun m => m.agent_id == a && strTrim m.content == "")).map
              (fun m => m.id)).contains p.memory_id)) := hp
      rw [List.mem_filter, List.mem_filter] at hp'
      obtain ⟨⟨hpdb, hpp⟩, hpdel⟩ := hp'
      show (!(p.agent_id == a) ||
        ((((db.memories.filter
            (fun m => !(m.agent_id == a && strTrim m.content == ""))).filter
          (fun m => m.agent_id == a)).map (fun m => m.id)).contains p.memory_id)) = true
      cases hpa : (p.agent_id == a) with
      | false => simp
      | true =>
        rw [hpa] at hpp
        simp only [Bool.not_true, Bool.false_or] at hpp
        simp only [Bool.not_true, Bool.false_or]
        exact govern_surviving_id db a p.memory_id hpp hpdel
    · -- no orphan links remain
      intro l hl
      have hl' : l ∈ (db.links.filter (fun l => !(l.agent_id == a) ||
          (((db.memories.filter (fun m => m.agent_id == a)).map
              (fun m => m.id)).contains l.source_id &&
            ((db.memories.filter (fun m => m.agent_id == a)).map
              (fun m => m.id)).contains l.target_id))).filter
          (fun l => !(((db.memories.filter
            (fun m => m.agent_id == a && strTrim m.content == "")).map
              (fun m => m.id)).contains l.source_id) &&
            !(((db.memories.filter
              (fun m => m.agent_id == a && strTrim m.content == "")).map
                (fun m => m.id)).contains l.target_id)) := hl
      rw [List.mem_filter, List.mem_filter] at hl'
      obtain ⟨⟨hldb, hll⟩, hldel⟩ := hl'
      rw [Bool.and_eq_true] at hldel
      show (!(l.agent_id == a) ||
        (((((db.memories.filter
            (fun m => !(m.agent_id == a && strTrim m.content == ""))).filter
          (fun m => m.agent_id == a)).map (fun m => m.id)).contains l.source_id) &&
         ((((db.memories.filter
            (fun m => !(m.agent_id == a && strTrim m.content == ""))).filter
          (fun m => m.agent_id == a)).map (fun m => m.id)).contains l.target_id))) = true
      cases hla : (l.agent_id == a) with
      | false => simp
      | true =>
        rw [hla] at hll
        simp only [Bool.not_true, Bool.false_or] at hll
        simp only [Bool.not_true, Bool.false_or]
        rw [Bool.and_eq_true] at hll
        rw [Bool.and_eq_true]
        exact ⟨govern_surviving_id db a l.source_id hll.1 hldel.1,
          govern_surviving_id db a l.target_id hll.2 hldel.2⟩
    · -- no empty memories remain
      intro m hm
      have hm' : m ∈ db.memories.filter
          (fun m => !(m.agent_id == a && strTrim m.content == "")) := hm
      rw [List.mem_filter] at hm'
      have h2 := hm'.2
      cases hb : (m.agent_id == a && strTrim m.content == "") with
      | false => rfl
      | true =>
        rw [hb] at h2
        simp at h2
  | none =>
    apply govern_none_noop
    · intro p hp
      have hp' : p ∈ (db.paths.filter (fun p =>
          (db.memories.map (fun m => m.id)).contains p.memory_id)).filter
          (fun p => !(((db.memories.filter (fun m => strTrim m.content == "")).map
            (fun m => m.id)).contains p.memory_id)) := hp
      rw [List.mem_filter, List.mem_filter] at hp'
      obtain ⟨⟨hpdb, hpp⟩, hpdel⟩ := hp'
      show (((db.memories.filter (fun m => !(strTrim m.content == ""))).map
        (fun m => m.id)).contains p.memory_id) = true
      exact govern_surviving_id_none db p.memory_id hpp hpdel
    · intro l hl
      have hl' : l ∈ (db.links.filter (fun l =>
          (db.memories.map (fun m => m.id)).contains l.source_id &&
            (db.memories.map (fun m => m.id)).contains l.target_id)).filter
          (fun l => !(((db.memories.filter (fun m => strTrim m.content == "")).map
              (fun m => m.id)).contains l.source_id) &&
            !(((db.memories.filter (fun m => strTrim m.content == "")).map
              (fun m => m.id)).contains l.target_id)) := hl
      rw [List.mem_filter, List.mem_filter] at hl'
      obtain ⟨⟨hldb, hll⟩, hldel⟩ := hl'
      rw [Bool.and_eq_true] at hll hldel
      show ((((db.memories.filter (fun m => !(strTrim m.content == ""))).map
          (fun m => m.id)).contains l.source_id) &&
        (((db.memories.filter (fun m => !(strTrim m.content == ""))).map
          (fun m => m.id)).contains l.target_id)) = true
      rw [Bool.and_eq_true]
      exact ⟨govern_surviving_id_none db l.source_id hll.1 hldel.1,
        govern_surviving_id_none db l.target_id hll.2 hldel.2⟩
    · intro m hm
      have hm' : m ∈ db.memories.filter (fun m => !(strTrim m.content == "")) := hm
      rw [List.mem_filter] at hm'
      have h2 := hm'.2
      cases hb : (strTrim m.content == "") with
      | false => rfl
      | true =>
        rw [hb] at h2
        simp at h2

/-! ## Boot lemmas (C7) -/

section RatEvalE

attribute [local semireducible] Rat.add Rat.mul Rat.inv Rat.sub

end RatEvalE

end AgentMemory
